import Mathlib

/-!
# runconfig/parse.go

A shallow embedding of `parseRun` and of the sub-field parsers of
`runconfig/parse.go` (`parseRestartPolicy`, `parseNetMode`, `ParseDevice`,
`parseKeyValueOpts`), followed by theorems about them.

Go strings are Lean strings; a Go `(value, error)` result is a pair whose second
component is `none` for a nil error.  Packages that `parse.go` imports but that
are not part of the file (`mflag`, `opts`, `nat`, `units`, `parsers`) enter as the
fields of `Collaborators`.
-/

namespace Runconfig

/-! ## Go standard library -/

/-- The segments of `cs` between the occurrences of `sep`; there is always at
least one segment. -/
def splitChars (sep : Char) : List Char → List (List Char)
  | [] => [[]]
  | c :: cs =>
    if c = sep then [] :: splitChars sep cs
    else
      match splitChars sep cs with
      | [] => [[c]]
      | seg :: rest => (c :: seg) :: rest

/-- Go `strings.Split(s, sep)` for a separator of one character. -/
def Split (s : String) (sep : Char) : List String :=
  (splitChars sep s.data).map String.mk

/-- Go `strings.SplitN(s, sep, 2)` for a separator of one character: the text
before the first separator and, when there is a separator, all the text after it. -/
def SplitN2 (s : String) (sep : Char) : List String :=
  match s.data.span (fun c => c != sep) with
  | (a, []) => [String.mk a]
  | (a, _ :: b) => [String.mk a, String.mk b]

/-- Go `strings.Contains(s, sep)` for a separator of one character. -/
def Contains (s : String) (sep : Char) : Bool :=
  s.data.contains sep

/-- Go `path.IsAbs`: the path starts with a slash. -/
def IsAbs (p : String) : Bool :=
  match p.data with
  | c :: _ => c == '/'
  | [] => false

/-- Go `unicode.IsSpace`: the white space characters of Unicode. -/
def IsSpace (c : Char) : Bool :=
  let n := c.toNat
  (9 ≤ n && n ≤ 13) || n == 32 || n == 0x85 || n == 0xA0 || n == 0x1680 ||
    (0x2000 ≤ n && n ≤ 0x200A) || n == 0x2028 || n == 0x2029 || n == 0x202F ||
    n == 0x205F || n == 0x3000

/-- Go `strings.TrimSpace`: the text without its leading and trailing white
space. -/
def TrimSpace (s : String) : String :=
  String.mk (((s.data.dropWhile IsSpace).reverse.dropWhile IsSpace).reverse)

/-- Go `strconv.IntSize` on the 64-bit platforms the daemon is built for. -/
def IntSize : Nat := 64

/-- The value of a decimal digit. -/
def digitVal (c : Char) : Option Nat :=
  if '0' ≤ c ∧ c ≤ '9' then some (c.toNat - '0'.toNat) else none

/-- The number read from a run of decimal digits after the value `acc`; `none`
when a character is not a digit. -/
def digitsVal : List Char → Nat → Option Nat
  | [], acc => some acc
  | c :: cs, acc =>
    match digitVal c with
    | none => none
    | some d => digitsVal cs (acc * 10 + d)

/-- The magnitude `strconv.ParseUint(s, 10, _)` reads: `none` for an empty text or
a character that is not a digit (the range check is made by `Atoi`). -/
def ParseUint (cs : List Char) : Option Nat :=
  match cs with
  | [] => none
  | _ :: _ => digitsVal cs 0

/-- Errors of the package: the six exported error values, one constructor for
each `fmt.Errorf` call of the file, the `*NumError` of `strconv` (syntax and range
errors are not told apart), and an error handed back by another package. -/
inductive GoError
  | ErrInvalidWorkingDirectory
  | ErrConflictAttachDetach
  | ErrConflictDetachAutoRemove
  | ErrConflictNetworkHostname
  | ErrConflictHostNetworkAndLinks
  | ErrConflictRestartPolicyAndAutoRemove
  | InvalidBindMount
  | InvalidVolume
  | InvalidExposeFormat (e : String)
  | NetModeFlag (inner : GoError)
  | AlwaysWithCount
  | InvalidRestartPolicy (name : String)
  | InvalidOptFormat (o : String)
  | KeyEmpty (o : String)
  | InvalidContainerFormat
  | InvalidNet (netMode : String)
  | InvalidDevice (device : String)
  | NumError (num : String)
  | Delegated (msg : String)
  deriving DecidableEq, Repr

/-- Go `strconv.Atoi`: an optional sign, then decimal digits, the value within the
range of `int`. -/
def Atoi (s : String) : Int × Option GoError :=
  match s.data with
  | [] => (0, some (GoError.NumError s))
  | c :: cs =>
    let neg : Bool := c == '-'
    let body := if c == '+' || c == '-' then cs else c :: cs
    match ParseUint body with
    | none => (0, some (GoError.NumError s))
    | some un =>
      let cutoff : Nat := 2 ^ (IntSize - 1)
      if !neg && decide (cutoff ≤ un) then ((cutoff : Int) - 1, some (GoError.NumError s))
      else if neg && decide (cutoff < un) then (-(cutoff : Int), some (GoError.NumError s))
      else (if neg then -(un : Int) else (un : Int), none)

/-- Go `strconv.Itoa` on a natural number: its decimal digits, most significant
first. -/
def Itoa (n : Nat) : String :=
  String.mk (Nat.toDigits 10 n)

/-! ## Data model -/

/-- The two fields of `sysinfo.SysInfo` that `parseRun` reads. -/
structure SysInfo where
  MemoryLimit : Bool
  SwapLimit : Bool
  deriving DecidableEq, Repr

/-- The `utils.KeyValuePair` built by `parseKeyValueOpts`. -/
structure KeyValuePair where
  Key : String
  Value : String
  deriving DecidableEq, Repr

/-- The `DeviceMapping` built by `ParseDevice`. -/
structure DeviceMapping where
  PathOnHost : String
  PathInContainer : String
  CgroupPermissions : String
  deriving DecidableEq, Repr

/-- The `RestartPolicy` built by `parseRestartPolicy`. -/
structure RestartPolicy where
  Name : String
  MaximumRetryCount : Int
  deriving DecidableEq, Repr

/-- The type `NetworkMode` is a Go string. -/
abbrev NetworkMode := String

/-- Modelled from the spec: `opts.ListOpts`, the accumulator of a multi-valued
option (package `opts` is not in the file).  It holds the values in the order they
were given. -/
structure ListOpts where
  values : List String
  deriving DecidableEq, Repr

namespace ListOpts

/-- Modelled from the spec: `ListOpts.Len`, the number of collected values. -/
def Len (o : ListOpts) : Nat := o.values.length

/-- Modelled from the spec: `ListOpts.GetAll`, the collected values in order. -/
def GetAll (o : ListOpts) : List String := o.values

/-- Modelled from the spec: `ListOpts.Get`, whether `key` is among the values. -/
def Get (o : ListOpts) (key : String) : Bool := decide (key ∈ o.values)

/-- Modelled from the spec: `ListOpts.Set` with a value its validator accepts
unchanged: the value is added after the others. -/
def Set (o : ListOpts) (value : String) : ListOpts := ⟨o.values ++ [value]⟩

/-- Modelled from the spec: `ListOpts.GetMap`, the values as the key set of a
`map[string]struct{}`; the set is held as the list of its distinct keys. -/
def GetMap (o : ListOpts) : List String := o.values.dedup

/-- Modelled from the spec: `ListOpts.Delete`, which deletes a specific entry from
the values accumulated for the option: the first value equal to `key` is taken
out, and a value given several times keeps its other copies. -/
def Delete (o : ListOpts) (key : String) : ListOpts := ⟨o.values.erase key⟩

end ListOpts

/-- The option values `cmd.Parse` leaves in the flag variables of `parseRun`, and
the positional arguments `cmd.Args()`. -/
structure RawOptionSet where
  flAttach : ListOpts
  flVolumes : ListOpts
  flLinks : ListOpts
  flEnv : ListOpts
  flDevices : ListOpts
  flPublish : ListOpts
  flExpose : ListOpts
  flDns : ListOpts
  flDnsSearch : ListOpts
  flVolumesFrom : ListOpts
  flLxcOpts : ListOpts
  flEnvFile : ListOpts
  flCapAdd : ListOpts
  flCapDrop : ListOpts
  flAutoRemove : Bool
  flDetach : Bool
  flNetwork : Bool
  flPrivileged : Bool
  flPublishAll : Bool
  flStdin : Bool
  flTty : Bool
  flContainerIDFile : String
  flEntrypoint : String
  flHostname : String
  flMemoryString : String
  flUser : String
  flWorkingDir : String
  flCpuShares : Int
  flCpuset : String
  flNetMode : String
  flRestartPolicy : String
  Args : List String
  deriving DecidableEq, Repr

/-- The `Config` record as `parseRun` fills it; `Port` is `nat.Port`.  A
`map[K]struct{}` is held as the list of its keys. -/
structure Config (Port : Type) where
  Hostname : String
  Domainname : String
  PortSpecs : List String
  ExposedPorts : List Port
  User : String
  Tty : Bool
  NetworkDisabled : Bool
  OpenStdin : Bool
  Memory : Int
  MemorySwap : Int
  CpuShares : Int
  Cpuset : String
  AttachStdin : Bool
  AttachStdout : Bool
  AttachStderr : Bool
  Env : List String
  Cmd : List String
  Image : String
  Volumes : List String
  Entrypoint : List String
  WorkingDir : String
  StdinOnce : Bool

/-- The `HostConfig` record as `parseRun` fills it; `PortMap` is the type of the
binding map `nat.ParsePortSpecs` returns. -/
structure HostConfig (PortMap : Type) where
  Binds : List String
  ContainerIDFile : String
  LxcConf : List KeyValuePair
  Privileged : Bool
  PortBindings : PortMap
  Links : List String
  PublishAllPorts : Bool
  Dns : List String
  DnsSearch : List String
  VolumesFrom : List String
  NetworkMode : NetworkMode
  Devices : List DeviceMapping
  CapAdd : List String
  CapDrop : List String
  RestartPolicy : RestartPolicy

/-- The functions of other packages that `parseRun` calls.  Each returns either
its value or the message of its error.
* `Parse`: `cmd.Parse(args)` together with the flag declarations before it;
* `RAMInBytes`: `units.RAMInBytes`;
* `ParseKeyValueOpt`: `parsers.ParseKeyValueOpt`;
* `ParsePortSpecs`: `nat.ParsePortSpecs`, giving the port set and the binding map;
* `NewPort`: `nat.NewPort(nat.SplitProtoPort(e))`;
* `ParseEnvFile`: `opts.ParseEnvFile`;
* `rangeKeys`: the order in which a `range` loop visits the keys of a map;
* `Delete`: `ListOpts.Delete`. -/
structure Collaborators (Port PortMap : Type) where
  Parse : List String → Except String RawOptionSet
  RAMInBytes : String → Except String Int
  ParseKeyValueOpt : String → Except String (String × String)
  ParsePortSpecs : List String → Except String (List Port × PortMap)
  NewPort : String → Port
  ParseEnvFile : String → Except String (List String)
  rangeKeys : List String → List String
  Delete : ListOpts → String → ListOpts

/-- What `parseRun` returns, without the flag set: the two records (nil is
`none`) and the error (nil is `none`). -/
structure Result (Port PortMap : Type) where
  config : Option (Config Port)
  hostConfig : Option (HostConfig PortMap)
  err : Option GoError

/-- The statement `return nil, nil, cmd, e`. -/
def Result.fail {Port PortMap : Type} (e : GoError) : Result Port PortMap :=
  ⟨none, none, some e⟩

/-! ## Sub-field parsers -/

open GoError

/-- The function `parseRestartPolicy` (lines 300-337). -/
def parseRestartPolicy (policy : String) : RestartPolicy × Option GoError :=
  let p : RestartPolicy := ⟨"", 0⟩
  if policy == "" then (p, none)
  else
    let parts := Split policy ':'
    let name := parts.headD ""
    if name == "always" then
      let p := { p with Name := name }
      if parts.length == 2 then (p, some AlwaysWithCount)
      else (p, none)
    else if name == "no" then (p, none)
    else if name == "on-failure" then
      let p := { p with Name := name }
      if parts.length == 2 then
        match Atoi (parts.getD 1 "") with
        | (_, some err) => (p, some err)
        | (count, none) => ({ p with MaximumRetryCount := count }, none)
      else (p, none)
    else (p, some (InvalidRestartPolicy name))

/-- A Go `map[string][]string`, held as the list of its keys with their values,
each key once. -/
abbrev StringListMap := List (String × List String)

/-- The map access `m[key]`: the values and whether the key exists. -/
def StringListMap.get (m : StringListMap) (key : String) : Option (List String) :=
  match m with
  | [] => none
  | (k, v) :: rest => if k = key then some v else StringListMap.get rest key

/-- The map assignment `m[key] = values`. -/
def StringListMap.put (m : StringListMap) (key : String) (values : List String) :
    StringListMap :=
  match m with
  | [] => [(key, values)]
  | (k, v) :: rest =>
    if k = key then (key, values) :: rest else (k, v) :: StringListMap.put rest key values

/-- The loop of `parseDriverOpts` (lines 342-354) over the entries still to read,
`out` being the map built so far. -/
def driverOptsLoop : List String → StringListMap → StringListMap × Option GoError
  | [], out => (out, none)
  | o :: os, out =>
    let parts := SplitN2 o '.'
    if parts.length < 2 then ([], some (InvalidOptFormat o))
    else if TrimSpace (parts.getD 0 "") == "" then ([], some (KeyEmpty o))
    else
      let values :=
        match out.get (parts.getD 0 "") with
        | some values => values
        | none => []
      driverOptsLoop os (out.put (parts.getD 0 "") (values ++ [parts.getD 1 ""]))

/-- The function `parseDriverOpts` (lines 339-356). -/
def parseDriverOpts (opts : ListOpts) : StringListMap × Option GoError :=
  driverOptsLoop opts.GetAll []

/-- The loop of `parseKeyValueOpts` (lines 360-366) over the entries still to
read, `out` holding the pairs read so far. -/
def keyValueLoop (ParseKeyValueOpt : String → Except String (String × String)) :
    List String → List KeyValuePair → List KeyValuePair × Option GoError
  | [], out => (out, none)
  | o :: os, out =>
    match ParseKeyValueOpt o with
    | .error m => ([], some (Delegated m))
    | .ok (k, v) => keyValueLoop ParseKeyValueOpt os (out ++ [⟨k, v⟩])

/-- The function `parseKeyValueOpts` (lines 358-368). -/
def parseKeyValueOpts (ParseKeyValueOpt : String → Except String (String × String))
    (opts : ListOpts) : List KeyValuePair × Option GoError :=
  keyValueLoop ParseKeyValueOpt opts.GetAll []

/-- The function `parseNetMode` (lines 370-382). -/
def parseNetMode (netMode : String) : NetworkMode × Option GoError :=
  let parts := Split netMode ':'
  let mode := parts.headD ""
  if mode == "bridge" || mode == "none" || mode == "host" then (netMode, none)
  else if mode == "container" then
    if parts.length < 2 || parts.getD 1 "" == "" then ("", some InvalidContainerFormat)
    else (netMode, none)
  else ("", some (InvalidNet netMode))

/-- The function `ParseDevice` (lines 384-412); the cases 3, 2 and 1 of the switch
fall through to one another. -/
def ParseDevice (device : String) : DeviceMapping × Option GoError :=
  let arr := Split device ':'
  let n := arr.length
  if n = 3 ∨ n = 2 ∨ n = 1 then
    let permissions := if n = 3 then arr.getD 2 "" else "rwm"
    let dst := if n = 3 ∨ n = 2 then arr.getD 1 "" else ""
    let src := arr.getD 0 ""
    let dst := if dst == "" then src else dst
    (⟨src, dst, permissions⟩, none)
  else (⟨"", "", ""⟩, some (InvalidDevice device))

/-! ## parseRun -/

/-- Lines 103-106: the memory string is emptied when the kernel has no memory
limit support. -/
def effectiveMemoryString (sysInfo : Option SysInfo) (fl : RawOptionSet) : String :=
  match sysInfo with
  | some si => if fl.flMemoryString != "" && !si.MemoryLimit then "" else fl.flMemoryString
  | none => fl.flMemoryString

/-- Lines 108-125: the checks under "Validate input params"; the error of the
first check that fires, `none` when none does. -/
def validateInput (fl : RawOptionSet) : Option GoError :=
  if fl.flDetach && decide (fl.flAttach.Len > 0) then some ErrConflictAttachDetach
  else if fl.flWorkingDir != "" && !IsAbs fl.flWorkingDir then some ErrInvalidWorkingDirectory
  else if fl.flDetach && fl.flAutoRemove then some ErrConflictDetachAutoRemove
  else if fl.flNetMode != "bridge" && fl.flNetMode != "none" && fl.flHostname != "" then
    some ErrConflictNetworkHostname
  else if fl.flNetMode == "host" && decide (fl.flLinks.Len > 0) then
    some ErrConflictHostNetworkAndLinks
  else none

/-- Lines 127-136: with neither `-d` nor `-a`, attach to stdout and stderr, and to
stdin when `-i` is given. -/
def defaultAttach (fl : RawOptionSet) : ListOpts :=
  if fl.flAttach.Len == 0 && !fl.flDetach then
    if !fl.flDetach then
      let a := (fl.flAttach.Set "stdout").Set "stderr"
      if fl.flStdin then a.Set "stdin" else a
    else fl.flAttach
  else fl.flAttach

/-- Lines 138-145: the memory limit in bytes, 0 for an empty string. -/
def parseMemory (RAMInBytes : String → Except String Int) (flMemoryString : String) :
    Except GoError Int :=
  if flMemoryString != "" then
    match RAMInBytes flMemoryString with
    | .error m => .error (Delegated m)
    | .ok parsedMemory => .ok parsedMemory
  else .ok 0

/-- Lines 147-161: the loop over the keys of `flVolumes.GetMap()` still to visit,
with the binds collected so far and the current `flVolumes`. -/
def volumesLoop (Delete : ListOpts → String → ListOpts) :
    List String → List String → ListOpts → Except GoError (List String × ListOpts)
  | [], binds, flVolumes => .ok (binds, flVolumes)
  | bind :: rest, binds, flVolumes =>
    let arr := Split bind ':'
    if arr.length > 1 then
      if arr.getD 1 "" == "/" then .error InvalidBindMount
      else volumesLoop Delete rest (binds ++ [bind]) (Delete flVolumes bind)
    else if bind == "/" then .error InvalidVolume
    else volumesLoop Delete rest binds flVolumes

/-- Lines 199-208: the loop merging the expose entries still to read into the
port set. -/
def exposeLoop {Port : Type} [DecidableEq Port] (NewPort : String → Port) :
    List String → List Port → Except GoError (List Port)
  | [], ports => .ok ports
  | e :: es, ports =>
    if Contains e ':' then .error (InvalidExposeFormat e)
    else
      let p := NewPort e
      exposeLoop NewPort es (if p ∈ ports then ports else ports ++ [p])

/-- Lines 210-218: the loop parsing the device entries still to read. -/
def devicesLoop : List String → List DeviceMapping → Except GoError (List DeviceMapping)
  | [], deviceMappings => .ok deviceMappings
  | device :: rest, deviceMappings =>
    match ParseDevice device with
    | (_, some err) => .error err
    | (deviceMapping, none) => devicesLoop rest (deviceMappings ++ [deviceMapping])

/-- Lines 220-228: the loop reading the environment files still to read. -/
def envFileLoop (ParseEnvFile : String → Except String (List String)) :
    List String → List String → Except GoError (List String)
  | [], envVariables => .ok envVariables
  | ef :: rest, envVariables =>
    match ParseEnvFile ef with
    | .error m => .error (Delegated m)
    | .ok parsedVars => envFileLoop ParseEnvFile rest (envVariables ++ parsedVars)

/-- Lines 246-267: the `Config` literal; `MemorySwap` and `StdinOnce` are not in
the literal and have their zero values. -/
def newConfig {Port : Type} (fl : RawOptionSet) (hostname domainname : String)
    (ports : List Port) (flMemory : Int) (flAttach : ListOpts) (envVariables runCmd : List String)
    (image : String) (flVolumes : ListOpts) (entrypoint : List String) : Config Port :=
  { Hostname := hostname
    Domainname := domainname
    PortSpecs := []
    ExposedPorts := ports
    User := fl.flUser
    Tty := fl.flTty
    NetworkDisabled := !fl.flNetwork
    OpenStdin := fl.flStdin
    Memory := flMemory
    MemorySwap := 0
    CpuShares := fl.flCpuShares
    Cpuset := fl.flCpuset
    AttachStdin := flAttach.Get "stdin"
    AttachStdout := flAttach.Get "stdout"
    AttachStderr := flAttach.Get "stderr"
    Env := envVariables
    Cmd := runCmd
    Image := image
    Volumes := flVolumes.GetMap
    Entrypoint := entrypoint
    WorkingDir := fl.flWorkingDir
    StdinOnce := false }

/-- Lines 269-285: the `HostConfig` literal. -/
def newHostConfig {PortMap : Type} (fl : RawOptionSet) (binds : List String)
    (lxcConf : List KeyValuePair) (portBindings : PortMap) (netMode : NetworkMode)
    (deviceMappings : List DeviceMapping) (restartPolicy : RestartPolicy) : HostConfig PortMap :=
  { Binds := binds
    ContainerIDFile := fl.flContainerIDFile
    LxcConf := lxcConf
    Privileged := fl.flPrivileged
    PortBindings := portBindings
    Links := fl.flLinks.GetAll
    PublishAllPorts := fl.flPublishAll
    Dns := fl.flDns.GetAll
    DnsSearch := fl.flDnsSearch.GetAll
    VolumesFrom := fl.flVolumesFrom.GetAll
    NetworkMode := netMode
    Devices := deviceMappings
    CapAdd := fl.flCapAdd.GetAll
    CapDrop := fl.flCapDrop.GetAll
    RestartPolicy := restartPolicy }

/-- Lines 287-295: the swap limit is dropped when the kernel cannot enforce it, and
stdin is closed at client disconnect when it is open and attached. -/
def finishConfig {Port : Type} (sysInfo : Option SysInfo) (flMemory : Int)
    (config : Config Port) : Config Port :=
  let config :=
    match sysInfo with
    | some si =>
      if decide (flMemory > 0) && !si.SwapLimit then { config with MemorySwap := -1 }
      else config
    | none => config
  if config.OpenStdin && config.AttachStdin then { config with StdinOnce := true }
  else config

/-- The function `parseRun` (lines 41-297), from the call of `cmd.Parse` on. -/
def parseRun {Port PortMap : Type} [DecidableEq Port] (ext : Collaborators Port PortMap)
    (args : List String) (sysInfo : Option SysInfo) : Result Port PortMap :=
  match ext.Parse args with
  | .error m => Result.fail (Delegated m)
  | .ok fl =>
  let flMemoryString := effectiveMemoryString sysInfo fl
  match validateInput fl with
  | some e => Result.fail e
  | none =>
  let flAttach := defaultAttach fl
  match parseMemory ext.RAMInBytes flMemoryString with
  | .error e => Result.fail e
  | .ok flMemory =>
  match volumesLoop ext.Delete (ext.rangeKeys fl.flVolumes.GetMap) [] fl.flVolumes with
  | .error e => Result.fail e
  | .ok (binds, flVolumes) =>
  let parsedArgs := fl.Args
  let image := if parsedArgs.length ≥ 1 then parsedArgs.getD 0 "" else ""
  let runCmd := if parsedArgs.length > 1 then parsedArgs.drop 1 else []
  let entrypoint := if fl.flEntrypoint != "" then [fl.flEntrypoint] else []
  match parseKeyValueOpts ext.ParseKeyValueOpt fl.flLxcOpts with
  | (_, some err) => Result.fail err
  | (lxcConf, none) =>
  let parts := SplitN2 fl.flHostname '.'
  let hostname := if parts.length > 1 then parts.getD 0 "" else fl.flHostname
  let domainname := if parts.length > 1 then parts.getD 1 "" else ""
  match ext.ParsePortSpecs fl.flPublish.GetAll with
  | .error m => Result.fail (Delegated m)
  | .ok (ports0, portBindings) =>
  match exposeLoop ext.NewPort fl.flExpose.GetAll ports0 with
  | .error e => Result.fail e
  | .ok ports =>
  match devicesLoop fl.flDevices.GetAll [] with
  | .error e => Result.fail e
  | .ok deviceMappings =>
  match envFileLoop ext.ParseEnvFile fl.flEnvFile.GetAll [] with
  | .error e => Result.fail e
  | .ok envFromFiles =>
  let envVariables := envFromFiles ++ fl.flEnv.GetAll
  match parseNetMode fl.flNetMode with
  | (_, some err) => Result.fail (NetModeFlag err)
  | (netMode, none) =>
  match parseRestartPolicy fl.flRestartPolicy with
  | (_, some err) => Result.fail err
  | (restartPolicy, none) =>
  if fl.flAutoRemove &&
      (restartPolicy.Name == "always" || restartPolicy.Name == "on-failure") then
    Result.fail ErrConflictRestartPolicyAndAutoRemove
  else
  let config : Config Port :=
    newConfig fl hostname domainname ports flMemory flAttach envVariables runCmd image
      flVolumes entrypoint
  let hostConfig : HostConfig PortMap :=
    newHostConfig fl binds lxcConf portBindings netMode deviceMappings restartPolicy
  ⟨some (finishConfig sysInfo flMemory config), some hostConfig, none⟩

/-! ## The conflict list of the specification -/

/-- The five conflict rules in the order the specification lists them, each with
the condition under which it is violated and the error it stands for. -/
def conflictRules (fl : RawOptionSet) : List (Bool × GoError) :=
  [ (fl.flDetach && !fl.flAttach.values.isEmpty, ErrConflictAttachDetach),
    (fl.flWorkingDir != "" && !IsAbs fl.flWorkingDir, ErrInvalidWorkingDirectory),
    (fl.flDetach && fl.flAutoRemove, ErrConflictDetachAutoRemove),
    (fl.flHostname != "" && !(fl.flNetMode == "bridge" || fl.flNetMode == "none"),
      ErrConflictNetworkHostname),
    (fl.flNetMode == "host" && !fl.flLinks.values.isEmpty, ErrConflictHostNetworkAndLinks) ]

/-- The error of the earliest violated rule of `conflictRules`, `none` when no rule
is violated. -/
def firstConflict (fl : RawOptionSet) : Option GoError :=
  ((conflictRules fl).find? (fun r => r.1)).map (fun r => r.2)

/-- The five errors of the conflict rules. -/
def conflictErrors : List GoError :=
  [ErrConflictAttachDetach, ErrInvalidWorkingDirectory, ErrConflictDetachAutoRemove,
    ErrConflictNetworkHostname, ErrConflictHostNetworkAndLinks]

/-! ## The stages of the specification -/

/-- Whether a run on the flag values `fl` gets past every stage before the expose
entries are merged: the conflict checks, the memory size, the volume loop, the lxc
options and the publish specs. -/
def stagesBeforeExposePass {Port PortMap : Type} (ext : Collaborators Port PortMap)
    (sysInfo : Option SysInfo) (fl : RawOptionSet) : Bool :=
  (validateInput fl).isNone &&
  (match parseMemory ext.RAMInBytes (effectiveMemoryString sysInfo fl) with
    | .ok _ => true
    | .error _ => false) &&
  (match volumesLoop ext.Delete (ext.rangeKeys fl.flVolumes.GetMap) [] fl.flVolumes with
    | .ok _ => true
    | .error _ => false) &&
  (parseKeyValueOpts ext.ParseKeyValueOpt fl.flLxcOpts).2.isNone &&
  (match ext.ParsePortSpecs fl.flPublish.GetAll with
    | .ok _ => true
    | .error _ => false)

/-- Whether a run on the flag values `fl` gets past every stage before the restart
policy is parsed: the stages before the expose entries, the expose entries, the
devices, the environment files and the network mode. -/
def stagesBeforeRestartPolicyPass {Port PortMap : Type} [DecidableEq Port]
    (ext : Collaborators Port PortMap) (sysInfo : Option SysInfo) (fl : RawOptionSet) : Bool :=
  stagesBeforeExposePass ext sysInfo fl &&
  (match ext.ParsePortSpecs fl.flPublish.GetAll with
    | .ok (ports, _) =>
      (match exposeLoop ext.NewPort fl.flExpose.GetAll ports with
        | .ok _ => true
        | .error _ => false)
    | .error _ => false) &&
  (match devicesLoop fl.flDevices.GetAll [] with
    | .ok _ => true
    | .error _ => false) &&
  (match envFileLoop ext.ParseEnvFile fl.flEnvFile.GetAll [] with
    | .ok _ => true
    | .error _ => false) &&
  (parseNetMode fl.flNetMode).2.isNone

/-- The text of `o` before its first `sep`, all of `o` when it has none. -/
def textBefore (o : String) (sep : Char) : String :=
  String.mk (o.data.takeWhile (fun c => c != sep))

/-- The text of `o` after its first `sep`, empty when it has none. -/
def textAfter (o : String) (sep : Char) : String :=
  String.mk ((o.data.dropWhile (fun c => c != sep)).drop 1)

/-- The remainders of the entries whose group name is `g`, in the order of the
entries. -/
def remaindersOf (entries : List String) (g : String) : List String :=
  (entries.filter (fun o => textBefore o '.' == g)).map (fun o => textAfter o '.')

/-! ## Worked inputs -/

/-- The flag variables when the command line gives no option: the defaults of
the declarations at lines 44-79. -/
def defaultOptions : RawOptionSet :=
  { flAttach := ⟨[]⟩, flVolumes := ⟨[]⟩, flLinks := ⟨[]⟩, flEnv := ⟨[]⟩, flDevices := ⟨[]⟩,
    flPublish := ⟨[]⟩, flExpose := ⟨[]⟩, flDns := ⟨[]⟩, flDnsSearch := ⟨[]⟩,
    flVolumesFrom := ⟨[]⟩, flLxcOpts := ⟨[]⟩, flEnvFile := ⟨[]⟩, flCapAdd := ⟨[]⟩,
    flCapDrop := ⟨[]⟩, flAutoRemove := false, flDetach := false, flNetwork := true,
    flPrivileged := false, flPublishAll := false, flStdin := false, flTty := false,
    flContainerIDFile := "", flEntrypoint := "", flHostname := "", flMemoryString := "",
    flUser := "", flWorkingDir := "", flCpuShares := 0, flCpuset := "", flNetMode := "bridge",
    flRestartPolicy := "", Args := [] }

/-- Collaborators for worked inputs.  The flag parser leaves `fl` in the flag
variables whatever the command line; a memory size is a plain number of bytes; a key/value option is split at its first `=`; the port set of the publish
specs is the specs themselves with no binding; a port is its spec; an environment
file holds nothing; a map is visited in the order of its key list; `Delete` removes
the key from the collection. -/
def exampleCollaborators (fl : RawOptionSet) : Collaborators String Unit :=
  { Parse := fun _ => .ok fl
    RAMInBytes := fun s =>
      match ParseUint s.data with
      | some n => .ok (n : Int)
      | none => .error s
    ParseKeyValueOpt := fun s =>
      match SplitN2 s '=' with
      | [k, v] => .ok (k, v)
      | _ => .error s
    ParsePortSpecs := fun specs => .ok (specs.dedup, ())
    NewPort := fun e => e
    ParseEnvFile := fun _ => .ok []
    rangeKeys := fun keys => keys
    Delete := fun o key => ⟨o.values.filter (fun v => v != key)⟩ }

/-! ## Splitting -/

theorem splitChars_ne_nil (sep : Char) (cs : List Char) : splitChars sep cs ≠ [] := by
  cases cs with
  | nil => simp [splitChars]
  | cons c cs =>
    unfold splitChars
    split
    · simp
    · split <;> simp

theorem splitChars_of_not_mem (sep : Char) (cs : List Char) (h : sep ∉ cs) :
    splitChars sep cs = [cs] := by
  induction cs with
  | nil => rfl
  | cons c cs ih =>
    simp only [List.mem_cons, not_or] at h
    have hc : ¬ c = sep := fun e => h.1 e.symm
    simp [splitChars, hc, ih h.2]

theorem splitChars_append_sep (sep : Char) (a b : List Char) (h : sep ∉ a) :
    splitChars sep (a ++ sep :: b) = a :: splitChars sep b := by
  induction a with
  | nil => simp [splitChars]
  | cons c cs ih =>
    simp only [List.mem_cons, not_or] at h
    have hc : ¬ c = sep := fun e => h.1 e.symm
    simp [splitChars, hc, ih h.2]

theorem splitChars_length_gt_one (sep : Char) (cs : List Char) :
    1 < (splitChars sep cs).length ↔ sep ∈ cs := by
  constructor
  · intro h
    by_contra hn
    rw [splitChars_of_not_mem sep cs hn] at h
    simp at h
  · intro h
    obtain ⟨a, b, rfl, ha⟩ := List.eq_append_cons_of_mem h
    rw [splitChars_append_sep sep a b ha]
    have := splitChars_ne_nil sep b
    cases hb : splitChars sep b with
    | nil => exact absurd hb this
    | cons x xs => simp

theorem Split_ne_nil (s : String) (sep : Char) : Split s sep ≠ [] := by
  simp [Split, splitChars_ne_nil]

theorem Split_length_gt_one (s : String) (sep : Char) :
    1 < (Split s sep).length ↔ sep ∈ s.data := by
  simp [Split, splitChars_length_gt_one]

/-- The two general parts of the `parseNetMode` theorem. -/
theorem parseNetMode_ok_iff (s : String) :
    ((parseNetMode s).2 = none ↔
      ((Split s ':')[0]? = some "bridge" ∨ (Split s ':')[0]? = some "none" ∨
        (Split s ':')[0]? = some "host" ∨
        ((Split s ':')[0]? = some "container" ∧
          ∃ ref, (Split s ':')[1]? = some ref ∧ ref ≠ ""))) ∧
    ((parseNetMode s).2 = none → (parseNetMode s).1 = s) := by
  have hne := Split_ne_nil s ':'
  unfold parseNetMode
  cases hsp : Split s ':' with
  | nil => exact absurd hsp hne
  | cons a rest =>
    cases rest with
    | nil =>
      by_cases h1 : a = "bridge" <;> by_cases h2 : a = "none" <;> by_cases h3 : a = "host" <;>
        by_cases h4 : a = "container" <;> simp_all
    | cons b rest =>
      by_cases h1 : a = "bridge" <;> by_cases h2 : a = "none" <;> by_cases h3 : a = "host" <;>
        by_cases h4 : a = "container" <;> by_cases h5 : b = "" <;>
        simp_all [show ¬ (rest.length + 1 + 1 < 2) by omega]

/-- C4: `parseNetMode s` succeeds exactly when the first colon-separated segment
of `s` is "bridge", "none" or "host", or is "container" with a second segment that
exists and is not empty; when it succeeds the mode it returns is `s` itself.  So
"container:abc" comes back unchanged, and "container:" and "container" are
rejected. -/
theorem parseNetMode_spec (s : String) :
    ((parseNetMode s).2 = none ↔
      ((Split s ':')[0]? = some "bridge" ∨ (Split s ':')[0]? = some "none" ∨
        (Split s ':')[0]? = some "host" ∨
        ((Split s ':')[0]? = some "container" ∧
          ∃ ref, (Split s ':')[1]? = some ref ∧ ref ≠ ""))) ∧
    ((parseNetMode s).2 = none → (parseNetMode s).1 = s) ∧
    parseNetMode "container:abc" = ("container:abc", none) ∧
    (parseNetMode "container:").2 ≠ none ∧ (parseNetMode "container").2 ≠ none :=
  ⟨(parseNetMode_ok_iff s).1, (parseNetMode_ok_iff s).2, by decide, by decide, by decide⟩

/-- C7: with `segs` the segments of `s` split on ":", `ParseDevice s` fails exactly
when `segs` has more than 3 elements; otherwise it returns the mapping whose
`PathOnHost` is `segs[0]`, whose `PathInContainer` is `segs[1]` when that segment
is present and not empty and `segs[0]` otherwise, and whose `CgroupPermissions` is
`segs[2]` when present and "rwm" otherwise.  The three worked inputs of the
specification come out as it says. -/
theorem ParseDevice_spec (s : String) :
    ((ParseDevice s).2 ≠ none ↔ 3 < (Split s ':').length) ∧
    (¬ 3 < (Split s ':').length →
      ∃ host, (Split s ':')[0]? = some host ∧
        (ParseDevice s).1.PathOnHost = host ∧
        (ParseDevice s).1.PathInContainer =
          (match (Split s ':')[1]? with
            | some c => if c = "" then host else c
            | none => host) ∧
        (ParseDevice s).1.CgroupPermissions = ((Split s ':')[2]?).getD "rwm") ∧
    ParseDevice "/dev/sdc:/dev/xvdc:r" = (⟨"/dev/sdc", "/dev/xvdc", "r"⟩, none) ∧
    ParseDevice "/dev/sdc" = (⟨"/dev/sdc", "/dev/sdc", "rwm"⟩, none) ∧
    (ParseDevice "a:b:c:d").2 ≠ none := by
  refine ⟨?_, ?_, by decide, by decide, by decide⟩
  · have hne := Split_ne_nil s ':'
    unfold ParseDevice
    rcases hsp : Split s ':' with _ | ⟨a, _ | ⟨b, _ | ⟨c, _ | ⟨d, rest⟩⟩⟩⟩
    · exact absurd hsp hne
    all_goals simp
  · have hne := Split_ne_nil s ':'
    unfold ParseDevice
    rcases hsp : Split s ':' with _ | ⟨a, _ | ⟨b, _ | ⟨c, _ | ⟨d, rest⟩⟩⟩⟩
    · exact absurd hsp hne
    · simp
    · by_cases hb : b = "" <;> simp [hb]
    · by_cases hb : b = "" <;> simp [hb]
    · simp

/-- C8: the policy "always:5:6" has first segment "always" and a suffix, yet
`parseRestartPolicy` accepts it with name "always" and no error: the count is
refused only when there are exactly two segments, as for "always:5". -/
theorem parseRestartPolicy_always_two_suffixes :
    parseRestartPolicy "always:5:6" = (⟨"always", 0⟩, none) ∧
    parseRestartPolicy "always:5" = (⟨"always", 0⟩, some AlwaysWithCount) ∧
    parseRestartPolicy "always" = (⟨"always", 0⟩, none) := by
  decide

/-- C9: the policy "on-failure:1:2" has first segment "on-failure" and the suffix
"1:2", which is not a decimal integer, yet `parseRestartPolicy` accepts it with a
retry count of 0: the suffix is read only when there are exactly two segments, as
for "on-failure:" and "on-failure:abc", which are refused. -/
theorem parseRestartPolicy_on_failure_two_suffixes :
    parseRestartPolicy "on-failure:1:2" = (⟨"on-failure", 0⟩, none) ∧
    (parseRestartPolicy "on-failure:").2 = some (NumError "") ∧
    (parseRestartPolicy "on-failure:abc").2 = some (NumError "abc") := by
  decide

/-! ## Decimal numbers -/

theorem digitVal_digitChar (k : Nat) (hk : k < 10) : digitVal (Nat.digitChar k) = some k := by
  interval_cases k <;> decide

theorem digitsVal_append (a b : List Char) (acc : Nat) :
    digitsVal (a ++ b) acc = (digitsVal a acc).bind (digitsVal b) := by
  induction a generalizing acc with
  | nil => rfl
  | cons c cs ih =>
    simp only [List.cons_append, digitsVal]
    cases digitVal c with
    | none => rfl
    | some d => exact ih _

theorem digitVal_isSome_of_digitsVal (cs : List Char) (acc v : Nat)
    (h : digitsVal cs acc = some v) : ∀ c ∈ cs, (digitVal c).isSome := by
  induction cs generalizing acc with
  | nil => simp
  | cons c cs ih =>
    simp only [digitsVal] at h
    cases hd : digitVal c with
    | none => simp [hd] at h
    | some d =>
      simp only [hd] at h
      intro x hx
      rcases List.mem_cons.1 hx with rfl | hx
      · simp [hd]
      · exact ih _ h x hx

/-- The digits `Nat.toDigitsCore` puts in front of `ds` read back as `n`. -/
theorem toDigitsCore_spec (f n : Nat) (ds : List Char) (hf : n < f) :
    ∃ pre, Nat.toDigitsCore 10 f n ds = pre ++ ds ∧ pre ≠ [] ∧
      ∀ acc, digitsVal pre acc = some (acc * 10 ^ pre.length + n) := by
  induction f generalizing n ds with
  | zero => omega
  | succ f ih =>
    simp only [Nat.toDigitsCore]
    by_cases h0 : n / 10 = 0
    · refine ⟨[Nat.digitChar (n % 10)], by simp [h0], by simp, ?_⟩
      intro acc
      have hn : n % 10 = n := by omega
      have hlt : n < 10 := by omega
      rw [hn]
      simp [digitsVal, digitVal_digitChar n hlt]
    · have hlt : n / 10 < f := by omega
      obtain ⟨pre, hpre, _, hval⟩ := ih (n / 10) (Nat.digitChar (n % 10) :: ds) hlt
      refine ⟨pre ++ [Nat.digitChar (n % 10)], by simp [h0, hpre], by simp, ?_⟩
      intro acc
      rw [digitsVal_append, hval acc]
      simp only [Option.some_bind, digitsVal,
        digitVal_digitChar (n % 10) (Nat.mod_lt _ (by decide)), List.length_append,
        List.length_singleton, pow_succ]
      congr 1
      have := Nat.div_add_mod n 10
      nlinarith [this]

theorem digitsVal_toDigits (n : Nat) :
    Nat.toDigits 10 n ≠ [] ∧ digitsVal (Nat.toDigits 10 n) 0 = some n := by
  obtain ⟨pre, hpre, hne, hval⟩ := toDigitsCore_spec (n + 1) n [] (Nat.lt_succ_self n)
  simp only [List.append_nil] at hpre
  unfold Nat.toDigits
  rw [hpre]
  exact ⟨hne, by simpa using hval 0⟩

theorem Atoi_Itoa (n : Nat) (hn : n < 2 ^ (IntSize - 1)) : Atoi (Itoa n) = ((n : Int), none) := by
  obtain ⟨hne, hval⟩ := digitsVal_toDigits n
  have hdig := digitVal_isSome_of_digitsVal _ _ _ hval
  unfold Atoi Itoa
  cases hts : Nat.toDigits 10 n with
  | nil => exact absurd hts hne
  | cons c cs =>
    rw [hts] at hval hdig
    have hc := hdig c (List.mem_cons_self _ _)
    have hplus : c ≠ '+' := by
      rintro rfl
      revert hc; decide
    have hminus : c ≠ '-' := by
      rintro rfl
      revert hc; decide
    simp [hplus, hminus, ParseUint, hval, Nat.not_le.2 hn]

theorem Itoa_no_colon (n : Nat) : ':' ∉ (Itoa n).data := by
  obtain ⟨_, hval⟩ := digitsVal_toDigits n
  have hdig := digitVal_isSome_of_digitsVal _ _ _ hval
  intro h
  have := hdig ':' (by simpa [Itoa] using h)
  revert this; decide

/-- C10: for a natural number `n` within the range of a Go `int`,
`parseRestartPolicy` on "on-failure:" followed by the decimal digits of `n` succeeds
with name "on-failure" and a maximum retry count of `n`; on the bare "on-failure"
it succeeds with a count of 0. -/
theorem parseRestartPolicy_on_failure_count (n : Nat) (hn : n < 2 ^ (IntSize - 1)) :
    parseRestartPolicy ("on-failure:" ++ Itoa n) = (⟨"on-failure", (n : Int)⟩, none) ∧
    parseRestartPolicy "on-failure" = (⟨"on-failure", 0⟩, none) := by
  refine ⟨?_, by decide⟩
  have hsplit : Split ("on-failure:" ++ Itoa n) ':' = ["on-failure", Itoa n] := by
    unfold Split
    have hd : ("on-failure:" ++ Itoa n).data = "on-failure".data ++ ':' :: (Itoa n).data := by
      simp [String.data_append]
    rw [hd, splitChars_append_sep ':' _ _ (by decide),
      splitChars_of_not_mem ':' _ (Itoa_no_colon n)]
    rfl
  have hne : ("on-failure:" ++ Itoa n) ≠ "" := by
    intro h
    have := congrArg String.data h
    simp [String.data_append] at this
  unfold parseRestartPolicy
  simp [hne, hsplit, Atoi_Itoa n hn]

/-- The count theorem at `n = 5`: "on-failure:5" gives a retry count of 5. -/
theorem parseRestartPolicy_on_failure_count_witness :
    5 < 2 ^ (IntSize - 1) ∧
    parseRestartPolicy "on-failure:5" = (⟨"on-failure", 5⟩, none) ∧
    parseRestartPolicy "on-failure" = (⟨"on-failure", 0⟩, none) :=
  ⟨by decide, parseRestartPolicy_on_failure_count 5 (by decide)⟩

/-! ## The shape of a run of parseRun -/

/-- A run of `parseRun` that returns no error went through every stage, and its
records are the ones the last lines build from the values of the stages. -/
theorem parseRun_success {Port PortMap : Type} [DecidableEq Port]
    (ext : Collaborators Port PortMap) (args : List String) (sysInfo : Option SysInfo)
    (herr : (parseRun ext args sysInfo).err = none) :
    ∃ fl flMemory binds flVolumes lxcConf ports0 portBindings ports deviceMappings
        envFromFiles netMode restartPolicy,
      ext.Parse args = .ok fl ∧
      validateInput fl = none ∧
      parseMemory ext.RAMInBytes (effectiveMemoryString sysInfo fl) = .ok flMemory ∧
      volumesLoop ext.Delete (ext.rangeKeys fl.flVolumes.GetMap) [] fl.flVolumes =
        .ok (binds, flVolumes) ∧
      parseKeyValueOpts ext.ParseKeyValueOpt fl.flLxcOpts = (lxcConf, none) ∧
      ext.ParsePortSpecs fl.flPublish.GetAll = .ok (ports0, portBindings) ∧
      exposeLoop ext.NewPort fl.flExpose.GetAll ports0 = .ok ports ∧
      devicesLoop fl.flDevices.GetAll [] = .ok deviceMappings ∧
      envFileLoop ext.ParseEnvFile fl.flEnvFile.GetAll [] = .ok envFromFiles ∧
      parseNetMode fl.flNetMode = (netMode, none) ∧
      parseRestartPolicy fl.flRestartPolicy = (restartPolicy, none) ∧
      (fl.flAutoRemove &&
        (restartPolicy.Name == "always" || restartPolicy.Name == "on-failure")) = false ∧
      parseRun ext args sysInfo =
        ⟨some (finishConfig sysInfo flMemory
            (newConfig fl
              (if (SplitN2 fl.flHostname '.').length > 1 then (SplitN2 fl.flHostname '.').getD 0 ""
                else fl.flHostname)
              (if (SplitN2 fl.flHostname '.').length > 1 then (SplitN2 fl.flHostname '.').getD 1 ""
                else "")
              ports flMemory (defaultAttach fl) (envFromFiles ++ fl.flEnv.GetAll)
              (if fl.Args.length > 1 then fl.Args.drop 1 else [])
              (if fl.Args.length ≥ 1 then fl.Args.getD 0 "" else "")
              flVolumes (if fl.flEntrypoint != "" then [fl.flEntrypoint] else []))),
          some (newHostConfig fl binds lxcConf portBindings netMode deviceMappings restartPolicy),
          none⟩ := by
  unfold parseRun at herr ⊢
  cases h1 : ext.Parse args with
  | error m => simp [h1, Result.fail] at herr
  | ok fl =>
  simp only [h1] at herr ⊢
  cases h2 : validateInput fl with
  | some e => simp [h2, Result.fail] at herr
  | none =>
  simp only [h2] at herr ⊢
  cases h3 : parseMemory ext.RAMInBytes (effectiveMemoryString sysInfo fl) with
  | error e => simp [h3, Result.fail] at herr
  | ok flMemory =>
  simp only [h3] at herr ⊢
  cases h4 : volumesLoop ext.Delete (ext.rangeKeys fl.flVolumes.GetMap) [] fl.flVolumes with
  | error e => simp [h4, Result.fail] at herr
  | ok bv =>
  obtain ⟨binds, flVolumes⟩ := bv
  simp only [h4] at herr ⊢
  rcases h5 : parseKeyValueOpts ext.ParseKeyValueOpt fl.flLxcOpts with ⟨lxcConf, _ | e5⟩
  swap
  · simp [h5, Result.fail] at herr
  simp only [h5] at herr ⊢
  cases h6 : ext.ParsePortSpecs fl.flPublish.GetAll with
  | error m => simp [h6, Result.fail] at herr
  | ok pp =>
  obtain ⟨ports0, portBindings⟩ := pp
  simp only [h6] at herr ⊢
  cases h7 : exposeLoop ext.NewPort fl.flExpose.GetAll ports0 with
  | error e => simp [h7, Result.fail] at herr
  | ok ports =>
  simp only [h7] at herr ⊢
  cases h8 : devicesLoop fl.flDevices.GetAll [] with
  | error e => simp [h8, Result.fail] at herr
  | ok deviceMappings =>
  simp only [h8] at herr ⊢
  cases h9 : envFileLoop ext.ParseEnvFile fl.flEnvFile.GetAll [] with
  | error e => simp [h9, Result.fail] at herr
  | ok envFromFiles =>
  simp only [h9] at herr ⊢
  rcases h10 : parseNetMode fl.flNetMode with ⟨netMode, _ | e10⟩
  swap
  · simp [h10, Result.fail] at herr
  simp only [h10] at herr ⊢
  rcases h11 : parseRestartPolicy fl.flRestartPolicy with ⟨restartPolicy, _ | e11⟩
  swap
  · simp [h11, Result.fail] at herr
  simp only [h11] at herr ⊢
  cases h12 : (fl.flAutoRemove &&
        (restartPolicy.Name == "always" || restartPolicy.Name == "on-failure")) with
  | true => simp [h12, Result.fail] at herr
  | false =>
  simp only [h12] at herr ⊢
  exact ⟨fl, flMemory, binds, flVolumes, lxcConf, ports0, portBindings, ports, deviceMappings,
    envFromFiles, netMode, restartPolicy, rfl, h2, h3, h4, h5, h6, h7, h8, h9, h10, h11,
    h12, by simp⟩

/-- A run of `parseRun` that returns an error returns no record. -/
theorem parseRun_failure {Port PortMap : Type} [DecidableEq Port]
    (ext : Collaborators Port PortMap) (args : List String) (sysInfo : Option SysInfo)
    (e : GoError) (herr : (parseRun ext args sysInfo).err = some e) :
    parseRun ext args sysInfo = Result.fail e := by
  unfold parseRun at herr ⊢
  cases h1 : ext.Parse args with
  | error m => simpa [h1, Result.fail] using herr
  | ok fl =>
  simp only [h1] at herr ⊢
  cases h2 : validateInput fl with
  | some e => simpa [h2, Result.fail] using herr
  | none =>
  simp only [h2] at herr ⊢
  cases h3 : parseMemory ext.RAMInBytes (effectiveMemoryString sysInfo fl) with
  | error e => simpa [h3, Result.fail] using herr
  | ok flMemory =>
  simp only [h3] at herr ⊢
  cases h4 : volumesLoop ext.Delete (ext.rangeKeys fl.flVolumes.GetMap) [] fl.flVolumes with
  | error e => simpa [h4, Result.fail] using herr
  | ok bv =>
  obtain ⟨binds, flVolumes⟩ := bv
  simp only [h4] at herr ⊢
  rcases h5 : parseKeyValueOpts ext.ParseKeyValueOpt fl.flLxcOpts with ⟨lxcConf, _ | e5⟩
  swap
  · simpa [h5, Result.fail] using herr
  simp only [h5] at herr ⊢
  cases h6 : ext.ParsePortSpecs fl.flPublish.GetAll with
  | error m => simpa [h6, Result.fail] using herr
  | ok pp =>
  obtain ⟨ports0, portBindings⟩ := pp
  simp only [h6] at herr ⊢
  cases h7 : exposeLoop ext.NewPort fl.flExpose.GetAll ports0 with
  | error e => simpa [h7, Result.fail] using herr
  | ok ports =>
  simp only [h7] at herr ⊢
  cases h8 : devicesLoop fl.flDevices.GetAll [] with
  | error e => simpa [h8, Result.fail] using herr
  | ok deviceMappings =>
  simp only [h8] at herr ⊢
  cases h9 : envFileLoop ext.ParseEnvFile fl.flEnvFile.GetAll [] with
  | error e => simpa [h9, Result.fail] using herr
  | ok envFromFiles =>
  simp only [h9] at herr ⊢
  rcases h10 : parseNetMode fl.flNetMode with ⟨netMode, _ | e10⟩
  swap
  · simpa [h10, Result.fail] using herr
  simp only [h10] at herr ⊢
  rcases h11 : parseRestartPolicy fl.flRestartPolicy with ⟨restartPolicy, _ | e11⟩
  swap
  · simpa [h11, Result.fail] using herr
  simp only [h11] at herr ⊢
  cases h12 : (fl.flAutoRemove &&
        (restartPolicy.Name == "always" || restartPolicy.Name == "on-failure")) with
  | true => simpa [h12, Result.fail] using herr
  | false => simp [h12] at herr

/-- C2: for every command line and every `sysInfo`, `parseRun` returns either both
records and a nil error, or no record and an error; it never returns a record with
an error, one record without the other, or nothing at all. -/
theorem parseRun_records_xor_error {Port PortMap : Type} [DecidableEq Port]
    (ext : Collaborators Port PortMap) (args : List String) (sysInfo : Option SysInfo) :
    ((parseRun ext args sysInfo).config.isSome ∧ (parseRun ext args sysInfo).hostConfig.isSome ∧
        (parseRun ext args sysInfo).err = none) ∨
    ((parseRun ext args sysInfo).config = none ∧ (parseRun ext args sysInfo).hostConfig = none ∧
        (parseRun ext args sysInfo).err.isSome) := by
  cases herr : (parseRun ext args sysInfo).err with
  | none =>
    obtain ⟨_, _, _, _, _, _, _, _, _, _, _, _, _, _, _, _, _, _, _, _, _, _, _, _, hrun⟩ :=
      parseRun_success ext args sysInfo herr
    left
    rw [hrun]
    simp
  | some e =>
    right
    rw [parseRun_failure ext args sysInfo e herr]
    simp [Result.fail]

/-! ## The errors of the stages -/

/-- The errors the conflict checks can return. -/
theorem validateInput_mem_conflictErrors (fl : RawOptionSet) (e : GoError)
    (h : validateInput fl = some e) : e ∈ conflictErrors := by
  unfold validateInput at h
  repeat' split at h
  all_goals simp_all [conflictErrors]

theorem parseMemory_error (R : String → Except String Int) (s : String) (e : GoError)
    (h : parseMemory R s = .error e) : ∃ m, e = Delegated m := by
  unfold parseMemory at h
  split at h
  · cases hR : R s with
    | error m => simp [hR] at h; exact ⟨m, h.symm⟩
    | ok v => simp [hR] at h
  · simp at h

theorem volumesLoop_error (D : ListOpts → String → ListOpts) (keys binds : List String)
    (vols : ListOpts) (e : GoError) (h : volumesLoop D keys binds vols = .error e) :
    e = InvalidBindMount ∨ e = InvalidVolume := by
  induction keys generalizing binds vols with
  | nil => simp [volumesLoop] at h
  | cons k ks ih =>
    unfold volumesLoop at h
    simp only at h
    split at h
    · split at h
      · left; simpa using h.symm
      · exact ih _ _ h
    · split at h
      · right; simpa using h.symm
      · exact ih _ _ h

theorem keyValueLoop_error (P : String → Except String (String × String)) (l : List String)
    (out : List KeyValuePair) (e : GoError) (h : (keyValueLoop P l out).2 = some e) :
    ∃ m, e = Delegated m := by
  induction l generalizing out with
  | nil => simp [keyValueLoop] at h
  | cons o os ih =>
    unfold keyValueLoop at h
    cases hP : P o with
    | error m => simp [hP] at h; exact ⟨m, h.symm⟩
    | ok kv => simp only [hP] at h; exact ih _ h

theorem exposeLoop_error {Port : Type} [DecidableEq Port] (N : String → Port) (l : List String)
    (ports : List Port) (e : GoError) (h : exposeLoop N l ports = .error e) :
    ∃ x, x ∈ l ∧ Contains x ':' = true ∧ e = InvalidExposeFormat x := by
  induction l generalizing ports with
  | nil => simp [exposeLoop] at h
  | cons x xs ih =>
    unfold exposeLoop at h
    split at h
    · rename_i hc
      exact ⟨x, List.mem_cons_self _ _, hc, by simpa using h.symm⟩
    · obtain ⟨y, hy, hc, he⟩ := ih _ h
      exact ⟨y, List.mem_cons_of_mem _ hy, hc, he⟩

theorem ParseDevice_error (device : String) (e : GoError) (h : (ParseDevice device).2 = some e) :
    e = InvalidDevice device := by
  unfold ParseDevice at h
  simp only at h
  split at h
  · simp at h
  · simpa using h.symm

theorem devicesLoop_error (l : List String) (acc : List DeviceMapping) (e : GoError)
    (h : devicesLoop l acc = .error e) : ∃ d, d ∈ l ∧ e = InvalidDevice d := by
  induction l generalizing acc with
  | nil => simp [devicesLoop] at h
  | cons d ds ih =>
    unfold devicesLoop at h
    rcases hd : ParseDevice d with ⟨m, _ | err⟩
    · simp only [hd] at h
      obtain ⟨y, hy, he⟩ := ih _ h
      exact ⟨y, List.mem_cons_of_mem _ hy, he⟩
    · simp only [hd] at h
      have : (ParseDevice d).2 = some err := by rw [hd]
      have he := ParseDevice_error d err this
      refine ⟨d, List.mem_cons_self _ _, ?_⟩
      rw [← he]
      simpa using h.symm

theorem envFileLoop_error (P : String → Except String (List String)) (l acc : List String)
    (e : GoError) (h : envFileLoop P l acc = .error e) : ∃ m, e = Delegated m := by
  induction l generalizing acc with
  | nil => simp [envFileLoop] at h
  | cons f fs ih =>
    unfold envFileLoop at h
    cases hP : P f with
    | error m => simp [hP] at h; exact ⟨m, h.symm⟩
    | ok vars => simp only [hP] at h; exact ih _ h

theorem Atoi_error (s : String) (e : GoError) (h : (Atoi s).2 = some e) : e = NumError s := by
  unfold Atoi at h
  split at h
  · simpa using h.symm
  · simp only at h
    split at h
    · simpa using h.symm
    · split at h
      · simpa using h.symm
      · split at h
        · simpa using h.symm
        · simp at h

theorem parseRestartPolicy_error (policy : String) (e : GoError)
    (h : (parseRestartPolicy policy).2 = some e) :
    e = AlwaysWithCount ∨ (∃ n, e = InvalidRestartPolicy n) ∨ ∃ n, e = NumError n := by
  unfold parseRestartPolicy at h
  simp only at h
  split at h
  · simp at h
  · split at h
    · split at h
      · left; simpa using h.symm
      · simp at h
    · split at h
      · simp at h
      · split at h
        · split at h
          · split at h
            · rename_i v err hA
              have h2 := Atoi_error _ err (by rw [hA])
              right; right
              exact ⟨_, by rw [← h2]; simpa using h.symm⟩
            · simp at h
          · simp at h
        · right; left; exact ⟨_, by simpa using h.symm⟩

/-! ## The conflict checks -/

theorem validateInput_eq_firstConflict (fl : RawOptionSet) :
    validateInput fl = firstConflict fl := by
  have e1 : (fl.flDetach && decide (fl.flAttach.Len > 0)) =
      (fl.flDetach && !fl.flAttach.values.isEmpty) := by
    unfold ListOpts.Len
    cases fl.flAttach.values <;> simp
  have e4 : (fl.flNetMode != "bridge" && fl.flNetMode != "none" && fl.flHostname != "") =
      (fl.flHostname != "" && !(fl.flNetMode == "bridge" || fl.flNetMode == "none")) := by
    simp only [bne]
    generalize (fl.flNetMode == "bridge") = a
    generalize (fl.flNetMode == "none") = b
    generalize (fl.flHostname == "") = c
    cases a <;> cases b <;> cases c <;> rfl
  have e5 : (fl.flNetMode == "host" && decide (fl.flLinks.Len > 0)) =
      (fl.flNetMode == "host" && !fl.flLinks.values.isEmpty) := by
    unfold ListOpts.Len
    cases fl.flLinks.values <;> simp
  unfold validateInput firstConflict conflictRules
  rw [e1, e4, e5]
  generalize (fl.flDetach && !fl.flAttach.values.isEmpty) = b1
  generalize (fl.flWorkingDir != "" && !IsAbs fl.flWorkingDir) = b2
  generalize (fl.flDetach && fl.flAutoRemove) = b3
  generalize (fl.flHostname != "" && !(fl.flNetMode == "bridge" || fl.flNetMode == "none")) = b4
  generalize (fl.flNetMode == "host" && !fl.flLinks.values.isEmpty) = b5
  cases b1 <;> cases b2 <;> cases b3 <;> cases b4 <;> cases b5 <;> rfl

/-- A run that gets past `cmd.Parse` and fails a conflict check returns the error
of that check. -/
theorem parseRun_of_validateInput_some {Port PortMap : Type} [DecidableEq Port]
    (ext : Collaborators Port PortMap) (args : List String) (sysInfo : Option SysInfo)
    (fl : RawOptionSet) (e : GoError) (hparse : ext.Parse args = .ok fl)
    (hval : validateInput fl = some e) : parseRun ext args sysInfo = Result.fail e := by
  unfold parseRun
  simp only [hparse, hval]

/-- The errors a run can return once it is past the conflict checks. -/
theorem parseRun_error_after_validateInput {Port PortMap : Type} [DecidableEq Port]
    (ext : Collaborators Port PortMap) (args : List String) (sysInfo : Option SysInfo)
    (fl : RawOptionSet) (e : GoError) (hparse : ext.Parse args = .ok fl)
    (hval : validateInput fl = none) (herr : (parseRun ext args sysInfo).err = some e) :
    (∃ m, e = Delegated m) ∨ e = InvalidBindMount ∨ e = InvalidVolume ∨
      (∃ x, e = InvalidExposeFormat x) ∨ (∃ d, e = InvalidDevice d) ∨
      (∃ inner, e = NetModeFlag inner) ∨ e = AlwaysWithCount ∨
      (∃ n, e = InvalidRestartPolicy n) ∨ (∃ n, e = NumError n) ∨
      e = ErrConflictRestartPolicyAndAutoRemove := by
  unfold parseRun at herr
  simp only [hparse, hval] at herr
  cases h3 : parseMemory ext.RAMInBytes (effectiveMemoryString sysInfo fl) with
  | error e3 =>
    simp only [h3, Result.fail, Option.some.injEq] at herr
    subst herr
    exact Or.inl (parseMemory_error _ _ _ h3)
  | ok flMemory =>
  simp only [h3] at herr
  cases h4 : volumesLoop ext.Delete (ext.rangeKeys fl.flVolumes.GetMap) [] fl.flVolumes with
  | error e4 =>
    simp only [h4, Result.fail, Option.some.injEq] at herr
    subst herr
    rcases volumesLoop_error _ _ _ _ _ h4 with h | h
    · exact Or.inr (Or.inl h)
    · exact Or.inr (Or.inr (Or.inl h))
  | ok bv =>
  obtain ⟨binds, flVolumes⟩ := bv
  simp only [h4] at herr
  rcases h5 : parseKeyValueOpts ext.ParseKeyValueOpt fl.flLxcOpts with ⟨lxcConf, _ | e5⟩
  swap
  · simp only [h5, Result.fail, Option.some.injEq] at herr
    subst herr
    exact Or.inl (keyValueLoop_error ext.ParseKeyValueOpt fl.flLxcOpts.GetAll [] e5
      (by unfold parseKeyValueOpts at h5; rw [h5]))
  simp only [h5] at herr
  cases h6 : ext.ParsePortSpecs fl.flPublish.GetAll with
  | error m =>
    simp only [h6, Result.fail, Option.some.injEq] at herr
    exact Or.inl ⟨m, herr.symm⟩
  | ok pp =>
  obtain ⟨ports0, portBindings⟩ := pp
  simp only [h6] at herr
  cases h7 : exposeLoop ext.NewPort fl.flExpose.GetAll ports0 with
  | error e7 =>
    simp only [h7, Result.fail, Option.some.injEq] at herr
    subst herr
    obtain ⟨x, _, _, hx⟩ := exposeLoop_error _ _ _ _ h7
    exact Or.inr (Or.inr (Or.inr (Or.inl ⟨x, hx⟩)))
  | ok ports =>
  simp only [h7] at herr
  cases h8 : devicesLoop fl.flDevices.GetAll [] with
  | error e8 =>
    simp only [h8, Result.fail, Option.some.injEq] at herr
    subst herr
    obtain ⟨d, _, hd⟩ := devicesLoop_error _ _ _ h8
    exact Or.inr (Or.inr (Or.inr (Or.inr (Or.inl ⟨d, hd⟩))))
  | ok deviceMappings =>
  simp only [h8] at herr
  cases h9 : envFileLoop ext.ParseEnvFile fl.flEnvFile.GetAll [] with
  | error e9 =>
    simp only [h9, Result.fail, Option.some.injEq] at herr
    subst herr
    exact Or.inl (envFileLoop_error _ _ _ _ h9)
  | ok envFromFiles =>
  simp only [h9] at herr
  rcases h10 : parseNetMode fl.flNetMode with ⟨netMode, _ | e10⟩
  swap
  · simp only [h10, Result.fail, Option.some.injEq] at herr
    exact Or.inr (Or.inr (Or.inr (Or.inr (Or.inr (Or.inl ⟨e10, herr.symm⟩)))))
  simp only [h10] at herr
  rcases h11 : parseRestartPolicy fl.flRestartPolicy with ⟨restartPolicy, _ | e11⟩
  swap
  · simp only [h11, Result.fail, Option.some.injEq] at herr
    subst herr
    have := parseRestartPolicy_error fl.flRestartPolicy e11 (by rw [h11])
    rcases this with h | h | h
    · exact Or.inr (Or.inr (Or.inr (Or.inr (Or.inr (Or.inr (Or.inl h))))))
    · exact Or.inr (Or.inr (Or.inr (Or.inr (Or.inr (Or.inr (Or.inr (Or.inl h)))))))
    · exact Or.inr (Or.inr (Or.inr (Or.inr (Or.inr (Or.inr (Or.inr (Or.inr (Or.inl h))))))))
  simp only [h11] at herr
  cases h12 : (fl.flAutoRemove &&
        (restartPolicy.Name == "always" || restartPolicy.Name == "on-failure")) with
  | true =>
    simp only [h12, Result.fail, Option.some.injEq, if_true] at herr
    exact Or.inr (Or.inr (Or.inr (Or.inr (Or.inr (Or.inr (Or.inr (Or.inr (Or.inr herr.symm))))))))
  | false => simp [h12] at herr

/-- C1: once `cmd.Parse` has filled the flag variables, the conflict checks of
`parseRun` are a first match over the list of the specification (`conflictRules`):
a run with a violated rule returns the error of the earliest violated rule and no
record; a run with no violated rule returns none of the five errors; and a run
with detach set and an attach target returns `ErrConflictAttachDetach` whatever
the other options are. -/
theorem parseRun_conflict_first_match {Port PortMap : Type} [DecidableEq Port]
    (ext : Collaborators Port PortMap) (args : List String) (sysInfo : Option SysInfo)
    (fl : RawOptionSet) (hparse : ext.Parse args = .ok fl) :
    (∀ e, firstConflict fl = some e → parseRun ext args sysInfo = Result.fail e) ∧
    (firstConflict fl = none →
      ∀ e ∈ conflictErrors, (parseRun ext args sysInfo).err ≠ some e) ∧
    (fl.flDetach = true → fl.flAttach.values ≠ [] →
      parseRun ext args sysInfo = Result.fail ErrConflictAttachDetach) := by
  refine ⟨?_, ?_, ?_⟩
  · intro e he
    rw [← validateInput_eq_firstConflict] at he
    exact parseRun_of_validateInput_some ext args sysInfo fl e hparse he
  · intro hnone e he herr
    rw [← validateInput_eq_firstConflict] at hnone
    have := parseRun_error_after_validateInput ext args sysInfo fl e hparse hnone herr
    rcases this with ⟨m, rfl⟩ | rfl | rfl | ⟨x, rfl⟩ | ⟨d, rfl⟩ | ⟨i, rfl⟩ | rfl | ⟨n, rfl⟩ |
      ⟨n, rfl⟩ | rfl <;> simp [conflictErrors] at he
  · intro hd ha
    apply parseRun_of_validateInput_some ext args sysInfo fl _ hparse
    unfold validateInput ListOpts.Len
    cases hv : fl.flAttach.values with
    | nil => exact absurd hv ha
    | cons a as => simp [hd]

/-- The first-match theorem on a command line that violates three rules at once
(attach with detach, a relative working directory, detach with auto-remove): the
error is the one of the first rule. -/
theorem parseRun_conflict_first_match_witness :
    parseRun (exampleCollaborators
        { defaultOptions with flDetach := true, flAttach := ⟨["stdout"]⟩, flAutoRemove := true,
                              flWorkingDir := "relative" }) [] none =
      Result.fail ErrConflictAttachDetach :=
  (parseRun_conflict_first_match
    (exampleCollaborators
      { defaultOptions with flDetach := true, flAttach := ⟨["stdout"]⟩, flAutoRemove := true,
                            flWorkingDir := "relative" })
    [] none _ rfl).1 ErrConflictAttachDetach (by decide)

/-- C3: with `--net=bridge:x` and every other option at its default, `parseRun`
succeeds and the network mode of the host configuration is "bridge:x", which is
none of "bridge", "none", "host" and "container:<reference>".  In the same way
`--net=host:x` is accepted together with a link, although the conflict checks
refuse `--net=host` with a link. -/
theorem parseRun_netMode_bridge_with_suffix :
    (parseRun (exampleCollaborators { defaultOptions with flNetMode := "bridge:x" })
        [] none).err = none ∧
    (parseRun (exampleCollaborators { defaultOptions with flNetMode := "bridge:x" })
        [] none).hostConfig.map (fun h => h.NetworkMode) = some "bridge:x" ∧
    (parseRun (exampleCollaborators
        { defaultOptions with flNetMode := "host:x", flLinks := ⟨["db:db"]⟩ })
        [] none).hostConfig.map (fun h => h.NetworkMode) = some "host:x" ∧
    (parseRun (exampleCollaborators
        { defaultOptions with flNetMode := "host", flLinks := ⟨["db:db"]⟩ })
        [] none).err = some ErrConflictHostNetworkAndLinks := by
  decide

/-! ## The records of a successful run -/

theorem finishConfig_fields {Port : Type} (sysInfo : Option SysInfo) (flMemory : Int)
    (config : Config Port) :
    (finishConfig sysInfo flMemory config).Volumes = config.Volumes ∧
    (finishConfig sysInfo flMemory config).ExposedPorts = config.ExposedPorts ∧
    (finishConfig sysInfo flMemory config).Memory = config.Memory ∧
    (finishConfig sysInfo flMemory config).WorkingDir = config.WorkingDir ∧
    (finishConfig sysInfo flMemory config).OpenStdin = config.OpenStdin ∧
    (finishConfig sysInfo flMemory config).AttachStdin = config.AttachStdin ∧
    (finishConfig sysInfo flMemory config).AttachStdout = config.AttachStdout ∧
    (finishConfig sysInfo flMemory config).AttachStderr = config.AttachStderr := by
  unfold finishConfig
  cases sysInfo with
  | none => simp only []; split <;> simp
  | some si => simp only []; split <;> split <;> simp

/-- The records of a run that returns them, in terms of the values of the
stages. -/
theorem parseRun_records {Port PortMap : Type} [DecidableEq Port]
    (ext : Collaborators Port PortMap) (args : List String) (sysInfo : Option SysInfo)
    (fl : RawOptionSet) (c : Config Port) (h : HostConfig PortMap)
    (hparse : ext.Parse args = .ok fl)
    (hc : (parseRun ext args sysInfo).config = some c)
    (hh : (parseRun ext args sysInfo).hostConfig = some h) :
    ∃ flMemory binds flVolumes lxcConf ports0 portBindings ports deviceMappings
        envFromFiles netMode restartPolicy,
      validateInput fl = none ∧
      parseMemory ext.RAMInBytes (effectiveMemoryString sysInfo fl) = .ok flMemory ∧
      volumesLoop ext.Delete (ext.rangeKeys fl.flVolumes.GetMap) [] fl.flVolumes =
        .ok (binds, flVolumes) ∧
      parseKeyValueOpts ext.ParseKeyValueOpt fl.flLxcOpts = (lxcConf, none) ∧
      ext.ParsePortSpecs fl.flPublish.GetAll = .ok (ports0, portBindings) ∧
      exposeLoop ext.NewPort fl.flExpose.GetAll ports0 = .ok ports ∧
      devicesLoop fl.flDevices.GetAll [] = .ok deviceMappings ∧
      envFileLoop ext.ParseEnvFile fl.flEnvFile.GetAll [] = .ok envFromFiles ∧
      parseNetMode fl.flNetMode = (netMode, none) ∧
      parseRestartPolicy fl.flRestartPolicy = (restartPolicy, none) ∧
      (fl.flAutoRemove &&
        (restartPolicy.Name == "always" || restartPolicy.Name == "on-failure")) = false ∧
      c = finishConfig sysInfo flMemory
            (newConfig fl
              (if (SplitN2 fl.flHostname '.').length > 1 then (SplitN2 fl.flHostname '.').getD 0 ""
                else fl.flHostname)
              (if (SplitN2 fl.flHostname '.').length > 1 then (SplitN2 fl.flHostname '.').getD 1 ""
                else "")
              ports flMemory (defaultAttach fl) (envFromFiles ++ fl.flEnv.GetAll)
              (if fl.Args.length > 1 then fl.Args.drop 1 else [])
              (if fl.Args.length ≥ 1 then fl.Args.getD 0 "" else "")
              flVolumes (if fl.flEntrypoint != "" then [fl.flEntrypoint] else [])) ∧
      h = newHostConfig fl binds lxcConf portBindings netMode deviceMappings restartPolicy := by
  have herr : (parseRun ext args sysInfo).err = none := by
    cases he : (parseRun ext args sysInfo).err with
    | none => rfl
    | some e =>
      rw [parseRun_failure ext args sysInfo e he] at hc
      simp [Result.fail] at hc
  obtain ⟨fl', flMemory, binds, flVolumes, lxcConf, ports0, portBindings, ports, deviceMappings,
    envFromFiles, netMode, restartPolicy, h1, h2, h3, h4, h5, h6, h7, h8, h9, h10, h11, h12,
    hrun⟩ := parseRun_success ext args sysInfo herr
  rw [hparse] at h1
  cases h1
  rw [hrun] at hc hh
  simp only [Option.some.injEq] at hc hh
  exact ⟨flMemory, binds, flVolumes, lxcConf, ports0, portBindings, ports, deviceMappings,
    envFromFiles, netMode, restartPolicy, h2, h3, h4, h5, h6, h7, h8, h9, h10, h11, h12,
    hc.symm, hh.symm⟩

/-! ## The volume loop -/

theorem Contains_iff (s : String) (sep : Char) : Contains s sep = true ↔ sep ∈ s.data := by
  simp [Contains]

theorem getD_one_eq_slash (arr : List String) :
    arr.getD 1 "" = "/" ↔ arr[1]? = some "/" := by
  rcases arr with _ | ⟨a, _ | ⟨b, rest⟩⟩ <;> simp

/-- What a completed volume loop has done: the binds are the earlier ones and the
visited keys with a colon, and every visited key passed its check. -/
theorem volumesLoop_ok (D : ListOpts → String → ListOpts) (keys binds : List String)
    (vols : ListOpts) (binds' : List String) (vols' : ListOpts)
    (h : volumesLoop D keys binds vols = .ok (binds', vols')) :
    (∀ x, x ∈ binds' ↔ x ∈ binds ∨ (x ∈ keys ∧ ':' ∈ x.data)) ∧
    (∀ k ∈ keys, ':' ∈ k.data → (Split k ':')[1]? ≠ some "/") ∧
    (∀ k ∈ keys, ':' ∉ k.data → k ≠ "/") := by
  induction keys generalizing binds vols with
  | nil =>
    simp only [volumesLoop, Except.ok.injEq, Prod.mk.injEq] at h
    obtain ⟨rfl, rfl⟩ := h
    simp
  | cons k ks ih =>
    unfold volumesLoop at h
    simp only at h
    by_cases hk : 1 < (Split k ':').length
    · have hcol : ':' ∈ k.data := (Split_length_gt_one k ':').1 hk
      rw [if_pos hk] at h
      split at h
      · simp at h
      · rename_i hslash
        have hslash' : (Split k ':')[1]? ≠ some "/" := by
          intro hx
          exact hslash (by simpa using (getD_one_eq_slash _).2 hx)
        obtain ⟨i1, i2, i3⟩ := ih _ _ h
        refine ⟨?_, ?_, ?_⟩
        · intro x
          rw [i1 x]
          simp only [List.mem_append, List.mem_cons, List.not_mem_nil, or_false]
          constructor
          · rintro ((hx | rfl) | ⟨hx, hc⟩)
            · exact Or.inl hx
            · exact Or.inr ⟨Or.inl rfl, hcol⟩
            · exact Or.inr ⟨Or.inr hx, hc⟩
          · rintro (hx | ⟨rfl | hx, hc⟩)
            · exact Or.inl (Or.inl hx)
            · exact Or.inl (Or.inr rfl)
            · exact Or.inr ⟨hx, hc⟩
        · intro x hx hc
          rcases List.mem_cons.1 hx with rfl | hx
          · exact hslash'
          · exact i2 x hx hc
        · intro x hx hc
          rcases List.mem_cons.1 hx with rfl | hx
          · exact absurd hcol hc
          · exact i3 x hx hc
    · have hcol : ':' ∉ k.data := fun hc => hk ((Split_length_gt_one k ':').2 hc)
      rw [if_neg hk] at h
      split at h
      · simp at h
      · rename_i hroot
        have hroot' : k ≠ "/" := by simpa using hroot
        obtain ⟨i1, i2, i3⟩ := ih _ _ h
        refine ⟨?_, ?_, ?_⟩
        · intro x
          rw [i1 x]
          simp only [List.mem_cons]
          constructor
          · rintro (hx | ⟨hx, hc⟩)
            · exact Or.inl hx
            · exact Or.inr ⟨Or.inr hx, hc⟩
          · rintro (hx | ⟨rfl | hx, hc⟩)
            · exact Or.inl hx
            · exact absurd hc hcol
            · exact Or.inr ⟨hx, hc⟩
        · intro x hx hc
          rcases List.mem_cons.1 hx with rfl | hx
          · exact absurd hc hcol
          · exact i2 x hx hc
        · intro x hx hc
          rcases List.mem_cons.1 hx with rfl | hx
          · exact hroot'
          · exact i3 x hx hc

/-- With a `Delete` that adds nothing, the volumes left by the loop are among the
ones it started from. -/
theorem volumesLoop_vols_subset (D : ListOpts → String → ListOpts)
    (hdel : ∀ o key x, x ∈ (D o key).values → x ∈ o.values)
    (keys binds : List String) (vols : ListOpts) (binds' : List String) (vols' : ListOpts)
    (h : volumesLoop D keys binds vols = .ok (binds', vols')) :
    ∀ x ∈ vols'.values, x ∈ vols.values := by
  induction keys generalizing binds vols with
  | nil =>
    simp only [volumesLoop, Except.ok.injEq, Prod.mk.injEq] at h
    obtain ⟨_, rfl⟩ := h
    simp
  | cons k ks ih =>
    unfold volumesLoop at h
    simp only at h
    split at h
    · split at h
      · simp at h
      · intro x hx
        exact hdel _ _ _ (ih _ _ h x hx)
    · split at h
      · simp at h
      · exact ih _ _ h

/-- With a `Delete` that removes exactly the key, the volumes left by the loop are
the ones it started from without the visited keys that have a colon. -/
theorem volumesLoop_vols (D : ListOpts → String → ListOpts)
    (hdel : ∀ o key x, x ∈ (D o key).values ↔ x ∈ o.values ∧ x ≠ key)
    (keys binds : List String) (vols : ListOpts) (binds' : List String) (vols' : ListOpts)
    (h : volumesLoop D keys binds vols = .ok (binds', vols')) :
    ∀ x, x ∈ vols'.values ↔ x ∈ vols.values ∧ ¬ (x ∈ keys ∧ ':' ∈ x.data) := by
  induction keys generalizing binds vols with
  | nil =>
    simp only [volumesLoop, Except.ok.injEq, Prod.mk.injEq] at h
    obtain ⟨_, rfl⟩ := h
    simp
  | cons k ks ih =>
    unfold volumesLoop at h
    simp only at h
    by_cases hk : 1 < (Split k ':').length
    · have hcol : ':' ∈ k.data := (Split_length_gt_one k ':').1 hk
      rw [if_pos hk] at h
      split at h
      · simp at h
      · intro x
        rw [ih _ _ h x, hdel]
        simp only [List.mem_cons, not_and]
        constructor
        · rintro ⟨⟨hx, hne⟩, hrest⟩
          refine ⟨hx, ?_⟩
          rintro (rfl | hx')
          · exact absurd rfl hne
          · exact hrest hx'
        · rintro ⟨hx, hrest⟩
          refine ⟨⟨hx, ?_⟩, fun hx' => hrest (Or.inr hx')⟩
          rintro rfl
          exact hrest (Or.inl rfl) hcol
    · have hcol : ':' ∉ k.data := fun hc => hk ((Split_length_gt_one k ':').2 hc)
      rw [if_neg hk] at h
      split at h
      · simp at h
      · intro x
        rw [ih _ _ h x]
        simp only [List.mem_cons, not_and]
        constructor
        · rintro ⟨hx, hrest⟩
          refine ⟨hx, ?_⟩
          rintro (rfl | hx')
          · exact fun hc => absurd hc hcol
          · exact hrest hx'
        · rintro ⟨hx, hrest⟩
          exact ⟨hx, fun hx' => hrest (Or.inr hx')⟩

/-- A run that gets past the conflict checks and the memory size and whose volume
loop fails returns the error of the loop. -/
theorem parseRun_of_volumesLoop_error {Port PortMap : Type} [DecidableEq Port]
    (ext : Collaborators Port PortMap) (args : List String) (sysInfo : Option SysInfo)
    (fl : RawOptionSet) (flMemory : Int) (e : GoError) (hparse : ext.Parse args = .ok fl)
    (hval : validateInput fl = none)
    (hmem : parseMemory ext.RAMInBytes (effectiveMemoryString sysInfo fl) = .ok flMemory)
    (hvol : volumesLoop ext.Delete (ext.rangeKeys fl.flVolumes.GetMap) [] fl.flVolumes =
      .error e) :
    parseRun ext args sysInfo = Result.fail e := by
  unfold parseRun
  simp only [hparse, hval, hmem, hvol]

/-- The partition of the volume entries under a `Delete` that removes every copy
of its key: let the `range` loop visit exactly the keys of the map and let `Delete`
leave no value equal to its key.  Then on every run that returns its records, each
raw volume entry with a ":" is in `HostConfig.Binds`, whole and unchanged, and not
in `Config.Volumes`; each raw volume entry without a ":" is in `Config.Volumes` and
not in `HostConfig.Binds`; and `Binds` and `Volumes` hold nothing but raw volume
entries. -/
theorem parseRun_binds_volumes_partition {Port PortMap : Type} [DecidableEq Port]
    (ext : Collaborators Port PortMap) (args : List String) (sysInfo : Option SysInfo)
    (fl : RawOptionSet) (c : Config Port) (h : HostConfig PortMap)
    (hkeys : ∀ keys x, x ∈ ext.rangeKeys keys ↔ x ∈ keys)
    (hdel : ∀ o key x, x ∈ (ext.Delete o key).values ↔ x ∈ o.values ∧ x ≠ key)
    (hparse : ext.Parse args = .ok fl)
    (hc : (parseRun ext args sysInfo).config = some c)
    (hh : (parseRun ext args sysInfo).hostConfig = some h) :
    (∀ v ∈ fl.flVolumes.values, Contains v ':' = true → v ∈ h.Binds ∧ v ∉ c.Volumes) ∧
    (∀ v ∈ fl.flVolumes.values, Contains v ':' = false → v ∈ c.Volumes ∧ v ∉ h.Binds) ∧
    (∀ x, x ∈ h.Binds ∨ x ∈ c.Volumes → x ∈ fl.flVolumes.values) := by
  obtain ⟨flMemory, binds, flVolumes, lxcConf, ports0, portBindings, ports, deviceMappings,
    envFromFiles, netMode, restartPolicy, _, _, h4, _, _, _, _, _, _, _, _, rfl, rfl⟩ :=
    parseRun_records ext args sysInfo fl c h hparse hc hh
  obtain ⟨hb, _, _⟩ := volumesLoop_ok _ _ _ _ _ _ h4
  have hv := volumesLoop_vols _ hdel _ _ _ _ _ h4
  have hB : ∀ x, x ∈ binds ↔ x ∈ fl.flVolumes.values ∧ ':' ∈ x.data := by
    intro x
    rw [hb x, hkeys]
    simp [ListOpts.GetMap]
  have hV : ∀ x, x ∈ flVolumes.GetMap ↔ x ∈ fl.flVolumes.values ∧ ':' ∉ x.data := by
    intro x
    unfold ListOpts.GetMap
    rw [List.mem_dedup, hv x, hkeys]
    simp only [ListOpts.GetMap, List.mem_dedup, not_and]
    constructor
    · rintro ⟨hx, hn⟩
      exact ⟨hx, hn hx⟩
    · rintro ⟨hx, hn⟩
      exact ⟨hx, fun _ => hn⟩
  simp only [(finishConfig_fields _ _ _).1, newConfig, newHostConfig]
  refine ⟨?_, ?_, ?_⟩
  · intro v hv hcol
    rw [Contains_iff] at hcol
    exact ⟨(hB v).2 ⟨hv, hcol⟩, fun hx => ((hV v).1 hx).2 hcol⟩
  · intro v hv hcol
    have hcol' : ':' ∉ v.data := by
      intro hx
      rw [(Contains_iff v ':').2 hx] at hcol
      exact Bool.noConfusion hcol
    exact ⟨(hV v).2 ⟨hv, hcol'⟩, fun hx => hcol' ((hB v).1 hx).2⟩
  · rintro x (hx | hx)
    · exact ((hB x).1 hx).1
    · exact ((hV x).1 hx).1

/-- The partition theorem on the volumes "/host:/container", "/data" and
"/host:/container" once more: the binds are ["/host:/container"] and the volumes
["/data"]. -/
theorem parseRun_binds_volumes_partition_witness :
    (∀ v ∈ ["/host:/container", "/data", "/host:/container"], Contains v ':' = true →
      v ∈ ["/host:/container"] ∧ v ∉ ["/data"]) ∧
    (∀ v ∈ ["/host:/container", "/data", "/host:/container"], Contains v ':' = false →
      v ∈ ["/data"] ∧ v ∉ ["/host:/container"]) ∧
    (∀ x, x ∈ ["/host:/container"] ∨ x ∈ ["/data"] →
      x ∈ ["/host:/container", "/data", "/host:/container"]) :=
  parseRun_binds_volumes_partition
    (exampleCollaborators
      { defaultOptions with flVolumes := ⟨["/host:/container", "/data", "/host:/container"]⟩ })
    [] none
    { defaultOptions with flVolumes := ⟨["/host:/container", "/data", "/host:/container"]⟩ }
    (finishConfig none 0
      (newConfig
        { defaultOptions with flVolumes := ⟨["/host:/container", "/data", "/host:/container"]⟩ }
        "" "" [] 0 ⟨["stdout", "stderr"]⟩ [] [] "" ⟨["/data"]⟩ []))
    (newHostConfig
      { defaultOptions with flVolumes := ⟨["/host:/container", "/data", "/host:/container"]⟩ }
      ["/host:/container"] [] () "bridge" [] ⟨"", 0⟩)
    (fun _ _ => Iff.rfl)
    (fun o key x => by simp [exampleCollaborators])
    rfl rfl rfl

/-- C6: let the `range` loop visit every key of the map and let `Delete` add no
value.  A run that gets past the conflict checks and the memory size fails, with
one of the two errors of the volume loop, when some raw volume entry with a ":"
has "/" as the segment after its first ":", or some raw volume entry without a ":"
is "/".  Hence in the records of a successful run no bind has the destination "/"
and "/" is not in `Config.Volumes`. -/
theorem parseRun_rejects_root_destination {Port PortMap : Type} [DecidableEq Port]
    (ext : Collaborators Port PortMap) (args : List String) (sysInfo : Option SysInfo)
    (fl : RawOptionSet)
    (hkeys : ∀ keys x, x ∈ keys → x ∈ ext.rangeKeys keys)
    (hdel : ∀ o key x, x ∈ (ext.Delete o key).values → x ∈ o.values)
    (hparse : ext.Parse args = .ok fl) :
    (validateInput fl = none →
      (∃ flMemory, parseMemory ext.RAMInBytes (effectiveMemoryString sysInfo fl) =
        .ok flMemory) →
      (∃ v ∈ fl.flVolumes.values,
        (Contains v ':' = true ∧ (Split v ':')[1]? = some "/") ∨
        (Contains v ':' = false ∧ v = "/")) →
      parseRun ext args sysInfo = Result.fail InvalidBindMount ∨
        parseRun ext args sysInfo = Result.fail InvalidVolume) ∧
    (∀ c h, (parseRun ext args sysInfo).config = some c →
      (parseRun ext args sysInfo).hostConfig = some h →
      (∀ b ∈ h.Binds, (Split b ':')[1]? ≠ some "/") ∧ "/" ∉ c.Volumes) := by
  refine ⟨?_, ?_⟩
  · rintro hval ⟨flMemory, hmem⟩ ⟨v, hv, hbad⟩
    have hvk : v ∈ ext.rangeKeys fl.flVolumes.GetMap :=
      hkeys _ _ (by simpa [ListOpts.GetMap] using hv)
    cases hvol : volumesLoop ext.Delete (ext.rangeKeys fl.flVolumes.GetMap) [] fl.flVolumes with
    | error e =>
      have hrun := parseRun_of_volumesLoop_error ext args sysInfo fl flMemory e hparse hval
        hmem hvol
      rcases volumesLoop_error _ _ _ _ _ hvol with rfl | rfl
      · exact Or.inl hrun
      · exact Or.inr hrun
    | ok bv =>
      obtain ⟨binds, flVolumes⟩ := bv
      obtain ⟨_, h2, h3⟩ := volumesLoop_ok _ _ _ _ _ _ hvol
      rcases hbad with ⟨hcol, hslash⟩ | ⟨hcol, hroot⟩
      · exact absurd hslash (h2 v hvk ((Contains_iff v ':').1 hcol))
      · have hcol' : ':' ∉ v.data := by
          intro hx
          rw [(Contains_iff v ':').2 hx] at hcol
          exact Bool.noConfusion hcol
        exact absurd hroot (h3 v hvk hcol')
  · intro c h hc hh
    obtain ⟨flMemory, binds, flVolumes, lxcConf, ports0, portBindings, ports, deviceMappings,
      envFromFiles, netMode, restartPolicy, _, _, h4, _, _, _, _, _, _, _, _, rfl, rfl⟩ :=
      parseRun_records ext args sysInfo fl c h hparse hc hh
    obtain ⟨hb, h2, h3⟩ := volumesLoop_ok _ _ _ _ _ _ h4
    have hsub := volumesLoop_vols_subset _ hdel _ _ _ _ _ h4
    simp only [(finishConfig_fields _ _ _).1, newConfig, newHostConfig]
    refine ⟨?_, ?_⟩
    · intro b hbm
      rcases (hb b).1 hbm with hx | ⟨hx, hcol⟩
      · simp at hx
      · exact h2 b hx hcol
    · intro hroot
      have hin : "/" ∈ fl.flVolumes.values :=
        hsub _ (by simpa [ListOpts.GetMap] using hroot)
      have hk : "/" ∈ ext.rangeKeys fl.flVolumes.GetMap :=
        hkeys _ _ (by simpa [ListOpts.GetMap] using hin)
      exact h3 "/" hk (by decide) rfl

/-- The rejection theorem on the volumes "/data" and "/host:/": the run fails. -/
theorem parseRun_rejects_root_destination_witness :
    parseRun (exampleCollaborators { defaultOptions with flVolumes := ⟨["/data", "/host:/"]⟩ })
        [] none = Result.fail InvalidBindMount ∨
      parseRun (exampleCollaborators { defaultOptions with flVolumes := ⟨["/data", "/host:/"]⟩ })
        [] none = Result.fail InvalidVolume :=
  (parseRun_rejects_root_destination
    (exampleCollaborators { defaultOptions with flVolumes := ⟨["/data", "/host:/"]⟩ })
    [] none { defaultOptions with flVolumes := ⟨["/data", "/host:/"]⟩ }
    (fun _ _ hx => hx)
    (fun o key x => by simp only [exampleCollaborators, List.mem_filter]; exact fun hx => hx.1)
    rfl).1 (by decide) ⟨0, rfl⟩ ⟨"/host:/", by decide, Or.inl (by decide)⟩

/-! ## A bind entry given twice -/

/-- The volume loop with a `Delete` that takes out one copy of its key, over keys
that are visited once each: every visited key with a ":" loses one copy, every
other value keeps all of its copies. -/
theorem volumesLoop_count_first_delete (D : ListOpts → String → ListOpts)
    (hdel : ∀ o key, D o key = o.Delete key)
    (keys binds : List String) (hnd : keys.Nodup) (vols : ListOpts) (binds' : List String)
    (vols' : ListOpts) (h : volumesLoop D keys binds vols = .ok (binds', vols')) :
    ∀ x, vols'.values.count x =
      vols.values.count x - (if x ∈ keys ∧ ':' ∈ x.data then 1 else 0) := by
  induction keys generalizing binds vols with
  | nil =>
    simp only [volumesLoop, Except.ok.injEq, Prod.mk.injEq] at h
    obtain ⟨_, rfl⟩ := h
    simp
  | cons k ks ih =>
    obtain ⟨hk, hks⟩ := List.nodup_cons.1 hnd
    unfold volumesLoop at h
    simp only at h
    by_cases hlen : 1 < (Split k ':').length
    · have hcol : ':' ∈ k.data := (Split_length_gt_one k ':').1 hlen
      rw [if_pos hlen] at h
      split at h
      · simp at h
      · intro x
        rw [ih _ hks _ h x, hdel]
        simp only [ListOpts.Delete]
        by_cases hx : x = k
        · subst hx
          simp [hk, hcol]
        · rw [List.count_erase_of_ne hx]
          simp [hx]
    · have hcol : ':' ∉ k.data := fun hc => hlen ((Split_length_gt_one k ':').2 hc)
      rw [if_neg hlen] at h
      split at h
      · simp at h
      · intro x
        rw [ih _ hks _ h x]
        by_cases hx : x = k
        · subst hx
          simp [hk, hcol]
        · simp [hx]

/-- The records of a successful run under a `Delete` that takes out one copy of its
key and a `range` loop that visits each key of the map once: every raw volume entry
with a ":" is in `HostConfig.Binds`, and it is in `Config.Volumes` as well exactly
when it was given two times or more; every raw volume entry without a ":" is in
`Config.Volumes` and not in `HostConfig.Binds`; `Binds` and `Volumes` hold nothing
but raw volume entries. -/
theorem parseRun_binds_volumes_first_delete {Port PortMap : Type} [DecidableEq Port]
    (ext : Collaborators Port PortMap) (args : List String) (sysInfo : Option SysInfo)
    (fl : RawOptionSet) (c : Config Port) (h : HostConfig PortMap)
    (hkeys : ∀ keys x, x ∈ ext.rangeKeys keys ↔ x ∈ keys)
    (hnodup : ∀ keys, keys.Nodup → (ext.rangeKeys keys).Nodup)
    (hdel : ∀ o key, ext.Delete o key = o.Delete key)
    (hparse : ext.Parse args = .ok fl)
    (hc : (parseRun ext args sysInfo).config = some c)
    (hh : (parseRun ext args sysInfo).hostConfig = some h) :
    (∀ v ∈ fl.flVolumes.values, Contains v ':' = true →
      v ∈ h.Binds ∧ (v ∈ c.Volumes ↔ 2 ≤ fl.flVolumes.values.count v)) ∧
    (∀ v ∈ fl.flVolumes.values, Contains v ':' = false → v ∈ c.Volumes ∧ v ∉ h.Binds) ∧
    (∀ x, x ∈ h.Binds ∨ x ∈ c.Volumes → x ∈ fl.flVolumes.values) := by
  obtain ⟨flMemory, binds, flVolumes, lxcConf, ports0, portBindings, ports, deviceMappings,
    envFromFiles, netMode, restartPolicy, _, _, h4, _, _, _, _, _, _, _, _, rfl, rfl⟩ :=
    parseRun_records ext args sysInfo fl c h hparse hc hh
  obtain ⟨hb, _, _⟩ := volumesLoop_ok _ _ _ _ _ _ h4
  have hcount := volumesLoop_count_first_delete _ hdel _ _
    (hnodup _ (List.nodup_dedup fl.flVolumes.values)) _ _ _ h4
  have hB : ∀ x, x ∈ binds ↔ x ∈ fl.flVolumes.values ∧ ':' ∈ x.data := by
    intro x
    rw [hb x, hkeys]
    simp [ListOpts.GetMap]
  have hV : ∀ x, x ∈ flVolumes.GetMap ↔
      0 < fl.flVolumes.values.count x -
        (if x ∈ fl.flVolumes.values ∧ ':' ∈ x.data then 1 else 0) := by
    intro x
    unfold ListOpts.GetMap
    rw [List.mem_dedup, ← List.count_pos_iff, hcount x]
    simp only [hkeys, ListOpts.GetMap, List.mem_dedup]
  simp only [(finishConfig_fields _ _ _).1, newConfig, newHostConfig]
  refine ⟨?_, ?_, ?_⟩
  · intro v hv hcol
    rw [Contains_iff] at hcol
    refine ⟨(hB v).2 ⟨hv, hcol⟩, ?_⟩
    rw [hV v, if_pos ⟨hv, hcol⟩]
    omega
  · intro v hv hcol
    have hcol' : ':' ∉ v.data := by
      intro hx
      rw [(Contains_iff v ':').2 hx] at hcol
      exact Bool.noConfusion hcol
    refine ⟨?_, fun hx => hcol' ((hB v).1 hx).2⟩
    rw [hV v, if_neg (fun hx => hcol' hx.2)]
    simpa using List.count_pos_iff.2 hv
  · rintro x (hx | hx)
    · exact ((hB x).1 hx).1
    · rw [hV x] at hx
      exact List.count_pos_iff.1 (by omega)

/-- C5: with `-v /host:/container` given twice, the run succeeds, the entry is in
`HostConfig.Binds`, and it is in `Config.Volumes` as well, although it contains a
":": the loop visits the entry once, as a key of the map, and `Delete` takes out
one of its two copies.  Given once, the same entry is in `Binds` only. -/
theorem parseRun_repeated_bind_single_delete :
    Contains "/host:/container" ':' = true ∧
    (parseRun
        { exampleCollaborators
            { defaultOptions with flVolumes := ⟨["/host:/container", "/host:/container"]⟩ } with
          Delete := ListOpts.Delete }
        [] none).err = none ∧
    (parseRun
        { exampleCollaborators
            { defaultOptions with flVolumes := ⟨["/host:/container", "/host:/container"]⟩ } with
          Delete := ListOpts.Delete }
        [] none).hostConfig.map (fun h => h.Binds) = some ["/host:/container"] ∧
    (parseRun
        { exampleCollaborators
            { defaultOptions with flVolumes := ⟨["/host:/container", "/host:/container"]⟩ } with
          Delete := ListOpts.Delete }
        [] none).config.map (fun c => c.Volumes) = some ["/host:/container"] ∧
    (parseRun
        { exampleCollaborators
            { defaultOptions with flVolumes := ⟨["/host:/container"]⟩ } with
          Delete := ListOpts.Delete }
        [] none).config.map (fun c => c.Volumes) = some [] := by
  decide

/-! ## The restart policy: no policy and unknown names -/

/-- C11: on the empty string, and on a string whose first colon-separated segment
is "no" (whatever follows it), `parseRestartPolicy` succeeds with the empty policy,
name "" and maximum retry count 0; on a string that is not empty and whose first
segment is none of "no", "always" and "on-failure" (an empty first segment as in
":5" included) it returns an error. -/
theorem parseRestartPolicy_no_policy_or_unknown (policy : String) :
    (policy = "" ∨ (Split policy ':')[0]? = some "no" →
      parseRestartPolicy policy = (⟨"", 0⟩, none)) ∧
    (policy ≠ "" → (Split policy ':')[0]? ≠ some "no" →
      (Split policy ':')[0]? ≠ some "always" → (Split policy ':')[0]? ≠ some "on-failure" →
      (parseRestartPolicy policy).2 ≠ none) ∧
    parseRestartPolicy "no:5:x" = (⟨"", 0⟩, none) ∧
    (parseRestartPolicy ":5").2 ≠ none ∧ (parseRestartPolicy "bogus").2 ≠ none := by
  refine ⟨?_, ?_, by decide, by decide, by decide⟩
  · intro h
    unfold parseRestartPolicy
    by_cases he : policy = ""
    · simp [he]
    · rcases h with h | h
      · exact absurd h he
      · rcases hsp : Split policy ':' with _ | ⟨a, rest⟩
        · exact absurd hsp (Split_ne_nil policy ':')
        · rw [hsp] at h
          simp only [List.getElem?_cons_zero, Option.some.injEq] at h
          subst h
          simp [he]
  · intro he h1 h2 h3
    unfold parseRestartPolicy
    rcases hsp : Split policy ':' with _ | ⟨a, rest⟩
    · exact absurd hsp (Split_ne_nil policy ':')
    · rw [hsp] at h1 h2 h3
      simp only [List.getElem?_cons_zero, Option.some.injEq, ne_eq] at h1 h2 h3
      simp [he, h1, h2, h3]

/-! ## Fields set after the literal -/

theorem finishConfig_StdinOnce {Port : Type} (sysInfo : Option SysInfo) (flMemory : Int)
    (config : Config Port) (h0 : config.StdinOnce = false) :
    ((finishConfig sysInfo flMemory config).StdinOnce = true ↔
      config.OpenStdin = true ∧ config.AttachStdin = true) := by
  unfold finishConfig
  cases sysInfo with
  | none => simp only []; split <;> simp_all
  | some si => simp only []; split <;> split <;> simp_all

theorem finishConfig_MemorySwap {Port : Type} (sysInfo : Option SysInfo) (flMemory : Int)
    (config : Config Port) (h0 : config.MemorySwap = 0) :
    (finishConfig sysInfo flMemory config).MemorySwap =
      (match sysInfo with
        | some si => if 0 < flMemory ∧ si.SwapLimit = false then -1 else 0
        | none => 0) := by
  unfold finishConfig
  cases sysInfo with
  | none => simp only []; split <;> simp_all
  | some si =>
    simp only []
    by_cases hm : 0 < flMemory <;> cases hs : si.SwapLimit <;>
      simp only [hm, decide_True, decide_False, Bool.not_false, Bool.not_true, Bool.and_true,
        Bool.and_false, Bool.false_and, Bool.true_and, if_true, if_false, and_true, and_false,
        false_and, true_and, gt_iff_lt, Bool.false_eq_true, Bool.true_eq_false] <;>
      split <;> simp [h0]

/-- A run that returns the `Config` record returns the `HostConfig` record. -/
theorem parseRun_hostConfig_of_config {Port PortMap : Type} [DecidableEq Port]
    (ext : Collaborators Port PortMap) (args : List String) (sysInfo : Option SysInfo)
    (c : Config Port) (hc : (parseRun ext args sysInfo).config = some c) :
    ∃ fl h, ext.Parse args = .ok fl ∧ (parseRun ext args sysInfo).hostConfig = some h := by
  have herr : (parseRun ext args sysInfo).err = none := by
    cases he : (parseRun ext args sysInfo).err with
    | none => rfl
    | some e =>
      rw [parseRun_failure ext args sysInfo e he] at hc
      simp [Result.fail] at hc
  obtain ⟨fl, _, _, _, _, _, _, _, _, _, _, _, h1, _, _, _, _, _, _, _, _, _, _, _, hrun⟩ :=
    parseRun_success ext args sysInfo herr
  exact ⟨fl, _, h1, by rw [hrun]⟩

/-- C15: in the `Config` of every successful run, `StdinOnce` is true exactly when
`OpenStdin` and `AttachStdin` are both true. -/
theorem parseRun_stdinOnce_iff {Port PortMap : Type} [DecidableEq Port]
    (ext : Collaborators Port PortMap) (args : List String) (sysInfo : Option SysInfo)
    (c : Config Port) (hc : (parseRun ext args sysInfo).config = some c) :
    c.StdinOnce = true ↔ c.OpenStdin = true ∧ c.AttachStdin = true := by
  obtain ⟨fl, h, hparse, hh⟩ := parseRun_hostConfig_of_config ext args sysInfo c hc
  obtain ⟨flMemory, binds, flVolumes, lxcConf, ports0, portBindings, ports, deviceMappings,
    envFromFiles, netMode, restartPolicy, _, _, _, _, _, _, _, _, _, _, _, rfl, rfl⟩ :=
    parseRun_records ext args sysInfo fl c h hparse hc hh
  rw [finishConfig_StdinOnce _ _ _ rfl, (finishConfig_fields _ _ _).2.2.2.2.1,
    (finishConfig_fields _ _ _).2.2.2.2.2.1]

/-- The stdin theorem on `-i` with no attach target: stdin is open and attached
by default, so `StdinOnce` is set. -/
theorem parseRun_stdinOnce_iff_witness :
    ∃ c, (parseRun (exampleCollaborators { defaultOptions with flStdin := true }) []
        none).config = some c ∧
      (c.StdinOnce = true ↔ c.OpenStdin = true ∧ c.AttachStdin = true) ∧
      c.StdinOnce = true :=
  ⟨finishConfig none 0
      (newConfig { defaultOptions with flStdin := true } "" "" [] 0
        ⟨["stdout", "stderr", "stdin"]⟩ [] [] "" ⟨[]⟩ []),
    rfl,
    parseRun_stdinOnce_iff (exampleCollaborators { defaultOptions with flStdin := true }) []
      none _ rfl,
    rfl⟩

/-- C17: in the `Config` of every successful run, `MemorySwap` is -1 when host
capability information is supplied, `Memory` is positive and swap limiting is
reported unsupported, and 0 in every other case. -/
theorem parseRun_memorySwap {Port PortMap : Type} [DecidableEq Port]
    (ext : Collaborators Port PortMap) (args : List String) (sysInfo : Option SysInfo)
    (c : Config Port) (hc : (parseRun ext args sysInfo).config = some c) :
    ((∃ si, sysInfo = some si ∧ si.SwapLimit = false) ∧ 0 < c.Memory → c.MemorySwap = -1) ∧
    (¬ ((∃ si, sysInfo = some si ∧ si.SwapLimit = false) ∧ 0 < c.Memory) →
      c.MemorySwap = 0) := by
  obtain ⟨fl, h, hparse, hh⟩ := parseRun_hostConfig_of_config ext args sysInfo c hc
  obtain ⟨flMemory, binds, flVolumes, lxcConf, ports0, portBindings, ports, deviceMappings,
    envFromFiles, netMode, restartPolicy, _, _, _, _, _, _, _, _, _, _, _, rfl, rfl⟩ :=
    parseRun_records ext args sysInfo fl c h hparse hc hh
  rw [finishConfig_MemorySwap _ _ _ rfl, (finishConfig_fields _ _ _).2.2.1]
  simp only [newConfig]
  cases sysInfo with
  | none => simp
  | some si =>
    by_cases hm : 0 < flMemory <;> cases hs : si.SwapLimit <;> simp [hm, hs]

/-- The swap theorem on `-m 1024` with a kernel that limits memory but not swap:
`MemorySwap` is -1. -/
theorem parseRun_memorySwap_witness :
    ∃ c, (parseRun (exampleCollaborators { defaultOptions with flMemoryString := "1024" }) []
        (some ⟨true, false⟩)).config = some c ∧
      c.Memory = 1024 ∧ c.MemorySwap = -1 :=
  ⟨finishConfig (some ⟨true, false⟩) 1024
      (newConfig { defaultOptions with flMemoryString := "1024" } "" "" [] 1024
        ⟨["stdout", "stderr"]⟩ [] [] "" ⟨[]⟩ []),
    rfl, rfl,
    (parseRun_memorySwap
      (exampleCollaborators { defaultOptions with flMemoryString := "1024" }) []
      (some ⟨true, false⟩) _ rfl).1 ⟨⟨⟨true, false⟩, rfl, rfl⟩, by decide⟩⟩

/-! ## Runs through given stages -/

/-- A run whose stages up to the restart policy all succeed ends at the check of
the restart policy against auto-remove. -/
theorem parseRun_of_stages {Port PortMap : Type} [DecidableEq Port]
    (ext : Collaborators Port PortMap) (args : List String) (sysInfo : Option SysInfo)
    (fl : RawOptionSet) (flMemory : Int) (binds : List String) (flVolumes : ListOpts)
    (lxcConf : List KeyValuePair) (ports0 : List Port) (portBindings : PortMap)
    (ports : List Port) (deviceMappings : List DeviceMapping) (envFromFiles : List String)
    (netMode : NetworkMode) (restartPolicy : RestartPolicy)
    (h1 : ext.Parse args = .ok fl)
    (h2 : validateInput fl = none)
    (h3 : parseMemory ext.RAMInBytes (effectiveMemoryString sysInfo fl) = .ok flMemory)
    (h4 : volumesLoop ext.Delete (ext.rangeKeys fl.flVolumes.GetMap) [] fl.flVolumes =
      .ok (binds, flVolumes))
    (h5 : parseKeyValueOpts ext.ParseKeyValueOpt fl.flLxcOpts = (lxcConf, none))
    (h6 : ext.ParsePortSpecs fl.flPublish.GetAll = .ok (ports0, portBindings))
    (h7 : exposeLoop ext.NewPort fl.flExpose.GetAll ports0 = .ok ports)
    (h8 : devicesLoop fl.flDevices.GetAll [] = .ok deviceMappings)
    (h9 : envFileLoop ext.ParseEnvFile fl.flEnvFile.GetAll [] = .ok envFromFiles)
    (h10 : parseNetMode fl.flNetMode = (netMode, none))
    (h11 : parseRestartPolicy fl.flRestartPolicy = (restartPolicy, none)) :
    ((fl.flAutoRemove &&
        (restartPolicy.Name == "always" || restartPolicy.Name == "on-failure")) = true →
      parseRun ext args sysInfo = Result.fail ErrConflictRestartPolicyAndAutoRemove) ∧
    ((fl.flAutoRemove &&
        (restartPolicy.Name == "always" || restartPolicy.Name == "on-failure")) = false →
      (parseRun ext args sysInfo).err = none) := by
  constructor
  · intro h12
    unfold parseRun
    simp only [h1, h2, h3, h4, h5, h6, h7, h8, h9, h10, h11, h12, if_true]
  · intro h12
    unfold parseRun
    simp only [h1, h2, h3, h4, h5, h6, h7, h8, h9, h10, h11, h12]
    rfl

/-- A run whose stages up to the publish specs succeed and whose expose loop fails
returns the error of the loop. -/
theorem parseRun_of_exposeLoop_error {Port PortMap : Type} [DecidableEq Port]
    (ext : Collaborators Port PortMap) (args : List String) (sysInfo : Option SysInfo)
    (fl : RawOptionSet) (flMemory : Int) (binds : List String) (flVolumes : ListOpts)
    (lxcConf : List KeyValuePair) (ports0 : List Port) (portBindings : PortMap) (e : GoError)
    (h1 : ext.Parse args = .ok fl)
    (h2 : validateInput fl = none)
    (h3 : parseMemory ext.RAMInBytes (effectiveMemoryString sysInfo fl) = .ok flMemory)
    (h4 : volumesLoop ext.Delete (ext.rangeKeys fl.flVolumes.GetMap) [] fl.flVolumes =
      .ok (binds, flVolumes))
    (h5 : parseKeyValueOpts ext.ParseKeyValueOpt fl.flLxcOpts = (lxcConf, none))
    (h6 : ext.ParsePortSpecs fl.flPublish.GetAll = .ok (ports0, portBindings))
    (h7 : exposeLoop ext.NewPort fl.flExpose.GetAll ports0 = .error e) :
    parseRun ext args sysInfo = Result.fail e := by
  unfold parseRun
  simp only [h1, h2, h3, h4, h5, h6, h7]

/-- What `stagesBeforeExposePass` says of the stages. -/
theorem stagesBeforeExposePass_iff {Port PortMap : Type}
    (ext : Collaborators Port PortMap) (sysInfo : Option SysInfo) (fl : RawOptionSet) :
    stagesBeforeExposePass ext sysInfo fl = true ↔
      validateInput fl = none ∧
      (∃ flMemory, parseMemory ext.RAMInBytes (effectiveMemoryString sysInfo fl) =
        .ok flMemory) ∧
      (∃ binds flVolumes,
        volumesLoop ext.Delete (ext.rangeKeys fl.flVolumes.GetMap) [] fl.flVolumes =
          .ok (binds, flVolumes)) ∧
      (∃ lxcConf, parseKeyValueOpts ext.ParseKeyValueOpt fl.flLxcOpts = (lxcConf, none)) ∧
      (∃ ports0 portBindings,
        ext.ParsePortSpecs fl.flPublish.GetAll = .ok (ports0, portBindings)) := by
  unfold stagesBeforeExposePass
  cases validateInput fl <;>
    cases parseMemory ext.RAMInBytes (effectiveMemoryString sysInfo fl) <;>
    rcases volumesLoop ext.Delete (ext.rangeKeys fl.flVolumes.GetMap) [] fl.flVolumes with
      e | ⟨b, v⟩ <;>
    rcases parseKeyValueOpts ext.ParseKeyValueOpt fl.flLxcOpts with ⟨l, _ | e⟩ <;>
    rcases ext.ParsePortSpecs fl.flPublish.GetAll with e | ⟨p, pb⟩ <;> simp

/-- What `stagesBeforeRestartPolicyPass` says of the stages. -/
theorem stagesBeforeRestartPolicyPass_iff {Port PortMap : Type} [DecidableEq Port]
    (ext : Collaborators Port PortMap) (sysInfo : Option SysInfo) (fl : RawOptionSet) :
    stagesBeforeRestartPolicyPass ext sysInfo fl = true ↔
      validateInput fl = none ∧
      (∃ flMemory, parseMemory ext.RAMInBytes (effectiveMemoryString sysInfo fl) =
        .ok flMemory) ∧
      (∃ binds flVolumes,
        volumesLoop ext.Delete (ext.rangeKeys fl.flVolumes.GetMap) [] fl.flVolumes =
          .ok (binds, flVolumes)) ∧
      (∃ lxcConf, parseKeyValueOpts ext.ParseKeyValueOpt fl.flLxcOpts = (lxcConf, none)) ∧
      (∃ ports0 portBindings ports,
        ext.ParsePortSpecs fl.flPublish.GetAll = .ok (ports0, portBindings) ∧
        exposeLoop ext.NewPort fl.flExpose.GetAll ports0 = .ok ports) ∧
      (∃ deviceMappings, devicesLoop fl.flDevices.GetAll [] = .ok deviceMappings) ∧
      (∃ envFromFiles, envFileLoop ext.ParseEnvFile fl.flEnvFile.GetAll [] =
        .ok envFromFiles) ∧
      (∃ netMode, parseNetMode fl.flNetMode = (netMode, none)) := by
  unfold stagesBeforeRestartPolicyPass
  rw [Bool.and_eq_true, Bool.and_eq_true, Bool.and_eq_true, Bool.and_eq_true,
    stagesBeforeExposePass_iff]
  rcases hps : ext.ParsePortSpecs fl.flPublish.GetAll with m | ⟨ports0, pb⟩
  · simp
  · rcases h7 : exposeLoop ext.NewPort fl.flExpose.GetAll ports0 with e | ports <;>
      rcases h8 : devicesLoop fl.flDevices.GetAll [] with e | d <;>
      rcases h9 : envFileLoop ext.ParseEnvFile fl.flEnvFile.GetAll [] with e | v <;>
      rcases h10 : parseNetMode fl.flNetMode with ⟨n, _ | e⟩ <;>
      simp [h7, and_assoc]

/-! ## The restart policy and auto-remove -/

/-- C12: with auto-remove set, the restart policy of every successful run has a
name that is neither "always" nor "on-failure"; a run that gets past every earlier
stage with a restart policy that parses to the name "always" or "on-failure" fails
with `ErrConflictRestartPolicyAndAutoRemove`; and a run that gets past every
earlier stage with the policy "" or "no" succeeds. -/
theorem parseRun_restart_policy_auto_remove {Port PortMap : Type} [DecidableEq Port]
    (ext : Collaborators Port PortMap) (args : List String) (sysInfo : Option SysInfo)
    (fl : RawOptionSet) (hparse : ext.Parse args = .ok fl) (hauto : fl.flAutoRemove = true) :
    (∀ c h, (parseRun ext args sysInfo).config = some c →
      (parseRun ext args sysInfo).hostConfig = some h →
      h.RestartPolicy.Name ≠ "always" ∧ h.RestartPolicy.Name ≠ "on-failure") ∧
    (stagesBeforeRestartPolicyPass ext sysInfo fl = true →
      ∀ rp, parseRestartPolicy fl.flRestartPolicy = (rp, none) →
        rp.Name = "always" ∨ rp.Name = "on-failure" →
        parseRun ext args sysInfo = Result.fail ErrConflictRestartPolicyAndAutoRemove) ∧
    (stagesBeforeRestartPolicyPass ext sysInfo fl = true →
      fl.flRestartPolicy = "" ∨ fl.flRestartPolicy = "no" →
      (parseRun ext args sysInfo).err = none) := by
  refine ⟨?_, ?_, ?_⟩
  · intro c h hc hh
    obtain ⟨flMemory, binds, flVolumes, lxcConf, ports0, portBindings, ports, deviceMappings,
      envFromFiles, netMode, restartPolicy, _, _, _, _, _, _, _, _, _, _, h12, rfl, rfl⟩ :=
      parseRun_records ext args sysInfo fl c h hparse hc hh
    simp only [newHostConfig]
    rw [hauto] at h12
    simpa using h12
  · intro hst rp hrp hname
    obtain ⟨h2, ⟨flMemory, h3⟩, ⟨binds, flVolumes, h4⟩, ⟨lxcConf, h5⟩,
      ⟨ports0, portBindings, ports, h6, h7⟩, ⟨deviceMappings, h8⟩, ⟨envFromFiles, h9⟩,
      ⟨netMode, h10⟩⟩ := (stagesBeforeRestartPolicyPass_iff ext sysInfo fl).1 hst
    refine (parseRun_of_stages ext args sysInfo fl flMemory binds flVolumes lxcConf ports0
      portBindings ports deviceMappings envFromFiles netMode rp hparse h2 h3 h4 h5 h6 h7 h8 h9
      h10 hrp).1 ?_
    rcases hname with hn | hn <;> simp [hauto, hn]
  · intro hst hpol
    obtain ⟨h2, ⟨flMemory, h3⟩, ⟨binds, flVolumes, h4⟩, ⟨lxcConf, h5⟩,
      ⟨ports0, portBindings, ports, h6, h7⟩, ⟨deviceMappings, h8⟩, ⟨envFromFiles, h9⟩,
      ⟨netMode, h10⟩⟩ := (stagesBeforeRestartPolicyPass_iff ext sysInfo fl).1 hst
    have hrp : parseRestartPolicy fl.flRestartPolicy = (⟨"", 0⟩, none) := by
      rcases hpol with hp | hp <;> rw [hp] <;> decide
    refine (parseRun_of_stages ext args sysInfo fl flMemory binds flVolumes lxcConf ports0
      portBindings ports deviceMappings envFromFiles netMode ⟨"", 0⟩ hparse h2 h3 h4 h5 h6 h7 h8
      h9 h10 hrp).2 ?_
    simp

/-- The auto-remove theorem on `--rm --restart=always`: the run fails with
`ErrConflictRestartPolicyAndAutoRemove`. -/
theorem parseRun_restart_policy_auto_remove_witness :
    parseRun (exampleCollaborators
        { defaultOptions with flAutoRemove := true, flRestartPolicy := "always" }) [] none =
      Result.fail ErrConflictRestartPolicyAndAutoRemove :=
  (parseRun_restart_policy_auto_remove
    (exampleCollaborators
      { defaultOptions with flAutoRemove := true, flRestartPolicy := "always" })
    [] none { defaultOptions with flAutoRemove := true, flRestartPolicy := "always" }
    rfl rfl).2.1 (by decide) ⟨"always", 0⟩ (by decide) (Or.inl rfl)

/-! ## The working directory -/

/-- C13, as the code has it: a run with a working directory that is not empty and
not absolute fails with `ErrInvalidWorkingDirectory`, unless detach is set together
with an attach target, when it fails with `ErrConflictAttachDetach`, the check
before it; a run with an empty or absolute working directory never returns
`ErrInvalidWorkingDirectory`; and the `WorkingDir` of a successful run is the value
given. -/
theorem parseRun_working_directory {Port PortMap : Type} [DecidableEq Port]
    (ext : Collaborators Port PortMap) (args : List String) (sysInfo : Option SysInfo)
    (fl : RawOptionSet) (hparse : ext.Parse args = .ok fl) :
    (fl.flWorkingDir ≠ "" → IsAbs fl.flWorkingDir = false →
      ¬ (fl.flDetach = true ∧ fl.flAttach.values ≠ []) →
      parseRun ext args sysInfo = Result.fail ErrInvalidWorkingDirectory) ∧
    (fl.flWorkingDir ≠ "" → IsAbs fl.flWorkingDir = false →
      fl.flDetach = true ∧ fl.flAttach.values ≠ [] →
      parseRun ext args sysInfo = Result.fail ErrConflictAttachDetach) ∧
    (fl.flWorkingDir = "" ∨ IsAbs fl.flWorkingDir = true →
      (parseRun ext args sysInfo).err ≠ some ErrInvalidWorkingDirectory) ∧
    (∀ c, (parseRun ext args sysInfo).config = some c → c.WorkingDir = fl.flWorkingDir) := by
  refine ⟨?_, ?_, ?_, ?_⟩
  · intro hne habs hnot
    apply parseRun_of_validateInput_some ext args sysInfo fl _ hparse
    unfold validateInput ListOpts.Len
    cases hd : fl.flDetach <;> cases hv : fl.flAttach.values <;>
      simp_all
  · intro _ _ hda
    apply parseRun_of_validateInput_some ext args sysInfo fl _ hparse
    unfold validateInput ListOpts.Len
    cases hv : fl.flAttach.values with
    | nil => exact absurd hv hda.2
    | cons a as => simp [hda.1]
  · intro hwd herr
    cases hval : validateInput fl with
    | some e =>
      rw [parseRun_of_validateInput_some ext args sysInfo fl e hparse hval] at herr
      simp only [Result.fail, Option.some.injEq] at herr
      subst herr
      unfold validateInput at hval
      rcases hwd with hw | hw
      · simp [hw] at hval
        repeat' split at hval
        all_goals simp_all
      · simp [hw] at hval
        repeat' split at hval
        all_goals simp_all
    | none =>
      have := parseRun_error_after_validateInput ext args sysInfo fl _ hparse hval herr
      simp at this
  · intro c hc
    obtain ⟨fl', h, hparse', hh⟩ := parseRun_hostConfig_of_config ext args sysInfo c hc
    obtain ⟨flMemory, binds, flVolumes, lxcConf, ports0, portBindings, ports, deviceMappings,
      envFromFiles, netMode, restartPolicy, _, _, _, _, _, _, _, _, _, _, _, rfl, rfl⟩ :=
      parseRun_records ext args sysInfo fl c h hparse hc hh
    rw [(finishConfig_fields _ _ _).2.2.2.1]
    rfl

/-- The working-directory theorem on `-w relative`: the run fails with
`ErrInvalidWorkingDirectory`. -/
theorem parseRun_working_directory_witness :
    parseRun (exampleCollaborators { defaultOptions with flWorkingDir := "relative" }) []
      none = Result.fail ErrInvalidWorkingDirectory :=
  (parseRun_working_directory
    (exampleCollaborators { defaultOptions with flWorkingDir := "relative" }) [] none
    { defaultOptions with flWorkingDir := "relative" } rfl).1
    (by decide) (by decide) (by decide)

/-- C13, as the claim has it, fails on `-d -a stdout -w relative`: the working
directory is not empty and not absolute, and the run fails with
`ErrConflictAttachDetach`, not with `ErrInvalidWorkingDirectory`. -/
theorem parseRun_working_directory_counterexample :
    ("relative" : String) ≠ "" ∧ IsAbs "relative" = false ∧
    (parseRun (exampleCollaborators
        { defaultOptions with flDetach := true, flAttach := ⟨["stdout"]⟩,
                              flWorkingDir := "relative" }) [] none).err =
      some ErrConflictAttachDetach ∧
    (parseRun (exampleCollaborators
        { defaultOptions with flDetach := true, flAttach := ⟨["stdout"]⟩,
                              flWorkingDir := "relative" }) [] none).err ≠
      some ErrInvalidWorkingDirectory := by
  decide

/-! ## The attach set -/

/-- C14: in the `Config` of a successful run with no attach target and without
detach, `AttachStdout` and `AttachStderr` are true and `AttachStdin` is true exactly
when keep-stdin-open is set; with attach targets given, each of the three fields
says whether its stream is among the given targets. -/
theorem parseRun_attach_fields {Port PortMap : Type} [DecidableEq Port]
    (ext : Collaborators Port PortMap) (args : List String) (sysInfo : Option SysInfo)
    (fl : RawOptionSet) (c : Config Port) (hparse : ext.Parse args = .ok fl)
    (hc : (parseRun ext args sysInfo).config = some c) :
    (fl.flAttach.values = [] → fl.flDetach = false →
      c.AttachStdout = true ∧ c.AttachStderr = true ∧
      (c.AttachStdin = true ↔ fl.flStdin = true)) ∧
    (fl.flAttach.values ≠ [] →
      (c.AttachStdin = true ↔ "stdin" ∈ fl.flAttach.values) ∧
      (c.AttachStdout = true ↔ "stdout" ∈ fl.flAttach.values) ∧
      (c.AttachStderr = true ↔ "stderr" ∈ fl.flAttach.values)) := by
  obtain ⟨fl', h, hparse', hh⟩ := parseRun_hostConfig_of_config ext args sysInfo c hc
  obtain ⟨flMemory, binds, flVolumes, lxcConf, ports0, portBindings, ports, deviceMappings,
    envFromFiles, netMode, restartPolicy, _, _, _, _, _, _, _, _, _, _, _, rfl, rfl⟩ :=
    parseRun_records ext args sysInfo fl c h hparse hc hh
  rw [(finishConfig_fields _ _ _).2.2.2.2.2.1, (finishConfig_fields _ _ _).2.2.2.2.2.2.1,
    (finishConfig_fields _ _ _).2.2.2.2.2.2.2]
  simp only [newConfig]
  constructor
  · intro hnil hdet
    unfold defaultAttach ListOpts.Len ListOpts.Get ListOpts.Set
    cases hs : fl.flStdin <;> simp [hnil, hdet]
  · intro hne
    have hlen : ¬ (fl.flAttach.Len == 0) = true := by
      unfold ListOpts.Len
      cases hv : fl.flAttach.values with
      | nil => exact absurd hv hne
      | cons a as => simp
    unfold defaultAttach ListOpts.Get
    simp [hlen]

/-- The attach theorem on a command line with neither `-a` nor `-d` nor `-i`:
stdout and stderr are attached, stdin is not. -/
theorem parseRun_attach_fields_witness :
    ∃ c, (parseRun (exampleCollaborators defaultOptions) [] none).config = some c ∧
      c.AttachStdout = true ∧ c.AttachStderr = true ∧
      (c.AttachStdin = true ↔ defaultOptions.flStdin = true) :=
  ⟨finishConfig none 0
      (newConfig defaultOptions "" "" [] 0 ⟨["stdout", "stderr"]⟩ [] [] "" ⟨[]⟩ []),
    rfl,
    (parseRun_attach_fields (exampleCollaborators defaultOptions) [] none defaultOptions _
      rfl rfl).1 rfl rfl⟩

/-! ## The memory limit without kernel support -/

theorem effectiveMemoryString_unsupported (si : SysInfo) (fl : RawOptionSet)
    (hlimit : si.MemoryLimit = false) : effectiveMemoryString (some si) fl = "" := by
  unfold effectiveMemoryString
  by_cases h : fl.flMemoryString = "" <;> simp [h, hlimit]

/-- C16: when host capability information is supplied and reports no memory limit
support, the memory string is emptied before the size is parsed: `units.RAMInBytes`
is not called and the limit is 0; the result of the run is the same whatever the
memory string, so the string never makes the run fail; and the `Memory` of a
successful run is 0. -/
theorem parseRun_memory_unsupported {Port PortMap : Type} [DecidableEq Port]
    (ext : Collaborators Port PortMap) (args : List String) (si : SysInfo)
    (fl : RawOptionSet) (hparse : ext.Parse args = .ok fl)
    (hlimit : si.MemoryLimit = false) :
    parseMemory ext.RAMInBytes (effectiveMemoryString (some si) fl) = .ok 0 ∧
    (∀ s, parseRun { ext with Parse := fun _ => .ok { fl with flMemoryString := s } } args
        (some si) = parseRun ext args (some si)) ∧
    (∀ c, (parseRun ext args (some si)).config = some c → c.Memory = 0) := by
  have hmem : parseMemory ext.RAMInBytes (effectiveMemoryString (some si) fl) = .ok 0 := by
    rw [effectiveMemoryString_unsupported si fl hlimit]
    simp [parseMemory]
  refine ⟨hmem, ?_, ?_⟩
  · intro s
    unfold parseRun
    simp only [hparse, effectiveMemoryString_unsupported si _ hlimit]
    rfl
  · intro c hc
    obtain ⟨fl', h, hparse', hh⟩ := parseRun_hostConfig_of_config ext args (some si) c hc
    obtain ⟨flMemory, binds, flVolumes, lxcConf, ports0, portBindings, ports, deviceMappings,
      envFromFiles, netMode, restartPolicy, _, h3, _, _, _, _, _, _, _, _, _, rfl, rfl⟩ :=
      parseRun_records ext args (some si) fl c h hparse hc hh
    rw [hmem] at h3
    cases h3
    rw [(finishConfig_fields _ _ _).2.2.1]
    rfl

/-- The memory theorem on `-m garbage` with a kernel without memory limit support:
the size is not parsed and the limit is 0. -/
theorem parseRun_memory_unsupported_witness :
    parseMemory (exampleCollaborators { defaultOptions with flMemoryString := "garbage" }).RAMInBytes
      (effectiveMemoryString (some ⟨false, false⟩)
        { defaultOptions with flMemoryString := "garbage" }) = .ok 0 :=
  (parseRun_memory_unsupported
    (exampleCollaborators { defaultOptions with flMemoryString := "garbage" }) []
    ⟨false, false⟩ { defaultOptions with flMemoryString := "garbage" } rfl rfl).1

/-! ## Published and exposed ports -/

theorem exists_first_of_exists {α : Type} (p : α → Bool) (l : List α)
    (h : ∃ e ∈ l, p e = true) :
    ∃ pre e post, l = pre ++ e :: post ∧ (∀ x ∈ pre, p x = false) ∧ p e = true := by
  induction l with
  | nil => simp at h
  | cons a as ih =>
    cases ha : p a with
    | true => exact ⟨[], a, as, rfl, by simp, ha⟩
    | false =>
      obtain ⟨e, he, hpe⟩ := h
      rcases List.mem_cons.1 he with rfl | he
      · rw [ha] at hpe
        exact Bool.noConfusion hpe
      · obtain ⟨pre, e', post, hl, hpre, hp⟩ := ih ⟨e, he, hpe⟩
        refine ⟨a :: pre, e', post, by rw [hl]; rfl, ?_, hp⟩
        intro x hx
        rcases List.mem_cons.1 hx with rfl | hx
        · exact ha
        · exact hpre x hx

/-- The expose loop fails at the first entry with a colon, whatever the entries
before it. -/
theorem exposeLoop_first_colon {Port : Type} [DecidableEq Port] (N : String → Port)
    (pre : List String) (e : String) (post : List String) (ports : List Port)
    (hpre : ∀ x ∈ pre, Contains x ':' = false) (he : Contains e ':' = true) :
    exposeLoop N (pre ++ e :: post) ports = .error (InvalidExposeFormat e) := by
  induction pre generalizing ports with
  | nil => simp [exposeLoop, he]
  | cons a as ih =>
    have ha : Contains a ':' = false := hpre a (List.mem_cons_self _ _)
    simp only [List.cons_append, exposeLoop, ha, Bool.false_eq_true, if_false]
    exact ih _ (fun x hx => hpre x (List.mem_cons_of_mem _ hx))

/-- What a completed expose loop has done to the port set. -/
theorem exposeLoop_ok {Port : Type} [DecidableEq Port] (N : String → Port)
    (l : List String) (ports ports' : List Port) (h : exposeLoop N l ports = .ok ports') :
    (∀ p, p ∈ ports' ↔ p ∈ ports ∨ ∃ e ∈ l, N e = p) ∧
    ports <+: ports' ∧
    ((∀ e ∈ l, N e ∈ ports) → ports' = ports) ∧
    (ports.Nodup → ports'.Nodup) := by
  induction l generalizing ports with
  | nil =>
    simp only [exposeLoop, Except.ok.injEq] at h
    subst h
    simp
  | cons a as ih =>
    unfold exposeLoop at h
    split at h
    · simp at h
    · simp only at h
      by_cases hin : N a ∈ ports
      · rw [if_pos hin] at h
        obtain ⟨i1, i2, i3, i4⟩ := ih _ h
        refine ⟨?_, i2, ?_, i4⟩
        · intro p
          rw [i1 p]
          constructor
          · rintro (hp | ⟨e, he, rfl⟩)
            · exact Or.inl hp
            · exact Or.inr ⟨e, List.mem_cons_of_mem _ he, rfl⟩
          · rintro (hp | ⟨e, he, rfl⟩)
            · exact Or.inl hp
            · rcases List.mem_cons.1 he with rfl | he
              · exact Or.inl hin
              · exact Or.inr ⟨e, he, rfl⟩
        · intro hall
          exact i3 (fun e he => hall e (List.mem_cons_of_mem _ he))
      · rw [if_neg hin] at h
        obtain ⟨i1, i2, i3, i4⟩ := ih _ h
        refine ⟨?_, ?_, ?_, ?_⟩
        · intro p
          rw [i1 p]
          simp only [List.mem_append, List.mem_cons, List.not_mem_nil, or_false]
          constructor
          · rintro ((hp | rfl) | ⟨e, he, rfl⟩)
            · exact Or.inl hp
            · exact Or.inr ⟨a, Or.inl rfl, rfl⟩
            · exact Or.inr ⟨e, Or.inr he, rfl⟩
          · rintro (hp | ⟨e, rfl | he, rfl⟩)
            · exact Or.inl (Or.inl hp)
            · exact Or.inl (Or.inr rfl)
            · exact Or.inr ⟨e, he, rfl⟩
        · exact (List.prefix_append ports [N a]).trans i2
        · intro hall
          exact absurd (hall a (List.mem_cons_self _ _)) hin
        · intro hnd
          apply i4
          rw [List.nodup_append]
          refine ⟨hnd, by simp, ?_⟩
          intro x hx hy
          simp only [List.mem_cons, List.not_mem_nil, or_false] at hy
          subst hy
          exact hin hx

/-- C18: a run that gets past every stage before the expose entries are merged
fails when some expose entry contains a ":"; the error names the first such entry,
and the entries before it do not prevent the failure. -/
theorem parseRun_expose_with_colon {Port PortMap : Type} [DecidableEq Port]
    (ext : Collaborators Port PortMap) (args : List String) (sysInfo : Option SysInfo)
    (fl : RawOptionSet) (hparse : ext.Parse args = .ok fl)
    (hstages : stagesBeforeExposePass ext sysInfo fl = true)
    (hcolon : ∃ e ∈ fl.flExpose.values, Contains e ':' = true) :
    ∃ pre e post, fl.flExpose.values = pre ++ e :: post ∧
      (∀ x ∈ pre, Contains x ':' = false) ∧ Contains e ':' = true ∧
      parseRun ext args sysInfo = Result.fail (InvalidExposeFormat e) := by
  obtain ⟨h2, ⟨flMemory, h3⟩, ⟨binds, flVolumes, h4⟩, ⟨lxcConf, h5⟩,
    ⟨ports0, portBindings, h6⟩⟩ := (stagesBeforeExposePass_iff ext sysInfo fl).1 hstages
  obtain ⟨pre, e, post, hl, hpre, he⟩ :=
    exists_first_of_exists (fun x => Contains x ':') fl.flExpose.values hcolon
  refine ⟨pre, e, post, hl, hpre, he, ?_⟩
  apply parseRun_of_exposeLoop_error ext args sysInfo fl flMemory binds flVolumes lxcConf
    ports0 portBindings _ hparse h2 h3 h4 h5 h6
  unfold ListOpts.GetAll
  rw [hl]
  exact exposeLoop_first_colon ext.NewPort pre e post ports0 hpre he

/-- The expose theorem on `--expose 80 --expose 1.2.3.4:81`: the run fails on the
second entry. -/
theorem parseRun_expose_with_colon_witness :
    ∃ pre e post, ["80", "1.2.3.4:81"] = pre ++ e :: post ∧
      (∀ x ∈ pre, Contains x ':' = false) ∧ Contains e ':' = true ∧
      parseRun (exampleCollaborators { defaultOptions with flExpose := ⟨["80", "1.2.3.4:81"]⟩ })
        [] none = Result.fail (InvalidExposeFormat e) :=
  parseRun_expose_with_colon
    (exampleCollaborators { defaultOptions with flExpose := ⟨["80", "1.2.3.4:81"]⟩ }) [] none
    { defaultOptions with flExpose := ⟨["80", "1.2.3.4:81"]⟩ } rfl (by decide)
    ⟨"1.2.3.4:81", by decide, by decide⟩

/-- C19: with `(ports, bindings)` the result of `nat.ParsePortSpecs` on the publish
specs, the `PortBindings` of a successful run is `bindings`, and its `ExposedPorts`
holds exactly the ports of `ports` and the port of each expose entry; the published
ports stay where they are, an expose entry whose port is already there changes
nothing, and no port appears twice when none does in `ports`. -/
theorem parseRun_ports {Port PortMap : Type} [DecidableEq Port]
    (ext : Collaborators Port PortMap) (args : List String) (sysInfo : Option SysInfo)
    (fl : RawOptionSet) (c : Config Port) (h : HostConfig PortMap) (ports : List Port)
    (bindings : PortMap) (hparse : ext.Parse args = .ok fl)
    (hc : (parseRun ext args sysInfo).config = some c)
    (hh : (parseRun ext args sysInfo).hostConfig = some h)
    (hps : ext.ParsePortSpecs fl.flPublish.GetAll = .ok (ports, bindings)) :
    h.PortBindings = bindings ∧
    (∀ p, p ∈ c.ExposedPorts ↔ p ∈ ports ∨ ∃ e ∈ fl.flExpose.values, ext.NewPort e = p) ∧
    ports <+: c.ExposedPorts ∧
    ((∀ e ∈ fl.flExpose.values, ext.NewPort e ∈ ports) → c.ExposedPorts = ports) ∧
    (ports.Nodup → c.ExposedPorts.Nodup) := by
  obtain ⟨flMemory, binds, flVolumes, lxcConf, ports0, portBindings, ports', deviceMappings,
    envFromFiles, netMode, restartPolicy, _, _, _, _, h6, h7, _, _, _, _, _, rfl, rfl⟩ :=
    parseRun_records ext args sysInfo fl c h hparse hc hh
  rw [hps] at h6
  simp only [Except.ok.injEq, Prod.mk.injEq] at h6
  obtain ⟨rfl, rfl⟩ := h6
  rw [(finishConfig_fields _ _ _).2.1]
  simp only [newConfig, newHostConfig, true_and]
  exact exposeLoop_ok ext.NewPort fl.flExpose.GetAll ports ports' h7

/-- The port theorem on `-p 80 --expose 80 --expose 443`: the exposed ports are 80
and 443, the port 80 once. -/
theorem parseRun_ports_witness :
    ∃ c h,
      (parseRun (exampleCollaborators
        { defaultOptions with flPublish := ⟨["80"]⟩, flExpose := ⟨["80", "443"]⟩ }) []
        none).config = some c ∧
      (parseRun (exampleCollaborators
        { defaultOptions with flPublish := ⟨["80"]⟩, flExpose := ⟨["80", "443"]⟩ }) []
        none).hostConfig = some h ∧
      c.ExposedPorts = ["80", "443"] ∧
      h.PortBindings = () ∧
      (∀ p, p ∈ c.ExposedPorts ↔ p ∈ ["80"] ∨ ∃ e ∈ ["80", "443"], e = p) ∧
      ["80"] <+: c.ExposedPorts ∧
      ((∀ e ∈ ["80", "443"], e ∈ ["80"]) → c.ExposedPorts = ["80"]) ∧
      (["80"].Nodup → c.ExposedPorts.Nodup) :=
  ⟨finishConfig none 0
      (newConfig { defaultOptions with flPublish := ⟨["80"]⟩, flExpose := ⟨["80", "443"]⟩ }
        "" "" ["80", "443"] 0 ⟨["stdout", "stderr"]⟩ [] [] "" ⟨[]⟩ []),
    newHostConfig { defaultOptions with flPublish := ⟨["80"]⟩, flExpose := ⟨["80", "443"]⟩ }
      [] [] () "bridge" [] ⟨"", 0⟩,
    rfl, rfl, rfl,
    parseRun_ports
      (exampleCollaborators
        { defaultOptions with flPublish := ⟨["80"]⟩, flExpose := ⟨["80", "443"]⟩ }) [] none
      { defaultOptions with flPublish := ⟨["80"]⟩, flExpose := ⟨["80", "443"]⟩ } _ _
      ["80"] () rfl rfl rfl rfl⟩

/-! ## Driver options -/

theorem dropWhile_ne_eq_nil (sep : Char) (l : List Char) :
    l.dropWhile (fun c => c != sep) = [] ↔ sep ∉ l := by
  induction l with
  | nil => simp
  | cons a as ih =>
    by_cases h : a = sep
    · subst h
      simp [List.dropWhile]
    · have h' : ¬ sep = a := fun e => h e.symm
      have hb : (a != sep) = true := by simp [h]
      rw [List.dropWhile_cons, if_pos hb, ih]
      simp [h']

/-- The two results of `strings.SplitN(o, sep, 2)`: the one text when there is no
separator, the text before the first separator and the text after it otherwise. -/
theorem SplitN2_eq (o : String) (sep : Char) :
    (sep ∉ o.data → SplitN2 o sep = [o]) ∧
    (sep ∈ o.data → SplitN2 o sep = [textBefore o sep, textAfter o sep]) := by
  unfold SplitN2 textBefore textAfter
  rw [List.span_eq_take_drop]
  constructor
  · intro h
    have hd := (dropWhile_ne_eq_nil sep o.data).2 h
    have ht : o.data.takeWhile (fun c => c != sep) = o.data := by
      have := List.takeWhile_append_dropWhile (fun c => c != sep) o.data
      rw [hd, List.append_nil] at this
      exact this
    simp only [hd, ht]
  · intro h
    cases hd : o.data.dropWhile (fun c => c != sep) with
    | nil => exact absurd h ((dropWhile_ne_eq_nil sep o.data).1 hd)
    | cons c rest => simp

theorem StringListMap.get_put (m : StringListMap) (k k' : String) (v : List String) :
    (m.put k v).get k' = if k = k' then some v else m.get k' := by
  induction m with
  | nil => simp [StringListMap.put, StringListMap.get]
  | cons kv rest ih =>
    obtain ⟨a, b⟩ := kv
    unfold StringListMap.put
    by_cases hak : a = k
    · subst hak
      by_cases hk : a = k' <;> simp [StringListMap.get, hk]
    · by_cases hk : k = k'
      · subst hk
        simp [StringListMap.get, hak, ih]
      · rw [if_neg hak]
        by_cases hak' : a = k'
        · simp [StringListMap.get, hak', hk]
        · simp [StringListMap.get, hak', hk, ih]

theorem remaindersOf_cons (o : String) (os : List String) (g : String) :
    remaindersOf (o :: os) g =
      if textBefore o '.' = g then textAfter o '.' :: remaindersOf os g
      else remaindersOf os g := by
  unfold remaindersOf
  by_cases h : textBefore o '.' = g
  · have hb : (textBefore o '.' == g) = true := by simp [h]
    rw [List.filter_cons, if_pos hb, if_pos h]
    rfl
  · have hb : ¬ (textBefore o '.' == g) = true := by simp [h]
    rw [List.filter_cons, if_neg hb, if_neg h]

theorem remaindersOf_eq_nil (l : List String) (g : String) :
    remaindersOf l g = [] ↔ ¬ ∃ o ∈ l, textBefore o '.' = g := by
  unfold remaindersOf
  simp [List.filter_eq_nil_iff]

theorem TrimSpace_empty : TrimSpace "" = "" := by decide

/-- What a completed loop of `parseDriverOpts` has done to the map, and what it
has checked. -/
theorem driverOptsLoop_ok (l : List String) (out res : StringListMap)
    (h : driverOptsLoop l out = (res, none)) :
    (∀ g, res.get g =
      match out.get g with
      | some v => some (v ++ remaindersOf l g)
      | none => if remaindersOf l g = [] then none else some (remaindersOf l g)) ∧
    (∀ o ∈ l, '.' ∈ o.data ∧ TrimSpace (textBefore o '.') ≠ "") := by
  induction l generalizing out with
  | nil =>
    simp only [driverOptsLoop, Prod.mk.injEq, and_true] at h
    subst h
    refine ⟨?_, by simp⟩
    intro g
    cases out.get g <;> simp [remaindersOf]
  | cons o os ih =>
    unfold driverOptsLoop at h
    by_cases hdot : '.' ∈ o.data
    · rw [(SplitN2_eq o '.').2 hdot] at h
      simp only [List.length_cons, List.length_nil, List.getD_cons_zero,
        List.getD_cons_succ] at h
      rw [if_neg (by decide)] at h
      split at h
      · simp at h
      · rename_i htrim
        have htrim' : TrimSpace (textBefore o '.') ≠ "" := by simpa using htrim
        obtain ⟨i1, i2⟩ := ih _ h
        refine ⟨?_, ?_⟩
        · intro g
          rw [i1 g, StringListMap.get_put, remaindersOf_cons]
          by_cases hg : textBefore o '.' = g
          · subst hg
            simp only [if_true]
            cases out.get (textBefore o '.') <;> simp
          · simp only [hg, if_false]
        · intro x hx
          rcases List.mem_cons.1 hx with rfl | hx
          · exact ⟨hdot, htrim'⟩
          · exact i2 x hx
    · rw [(SplitN2_eq o '.').1 hdot] at h
      simp at h

/-- C20: on every list of entries on which `parseDriverOpts` succeeds, the result
maps each group name that some entry has before its first "." to the remainders
(the text after the first ".") of exactly the entries with that group name, in the
order of the entries, so that a repeated group name appends; a group name that no
entry has is absent from the result.  `parseDriverOpts` fails when some entry has
no "." or an empty group name. -/
theorem parseDriverOpts_groups (opts : ListOpts) :
    (∀ out, parseDriverOpts opts = (out, none) → ∀ g,
      ((∃ o ∈ opts.values, textBefore o '.' = g) →
        out.get g = some (remaindersOf opts.values g)) ∧
      ((¬ ∃ o ∈ opts.values, textBefore o '.' = g) → out.get g = none)) ∧
    ((∃ o ∈ opts.values, Contains o '.' = false ∨ textBefore o '.' = "") →
      (parseDriverOpts opts).2 ≠ none) ∧
    parseDriverOpts ⟨["a.x=1", "b.y", "a.z.w"]⟩ =
      ([("a", ["x=1", "z.w"]), ("b", ["y"])], none) ∧
    (parseDriverOpts ⟨["a.x=1", "nodot"]⟩).2 ≠ none ∧
    (parseDriverOpts ⟨[".x=1"]⟩).2 ≠ none := by
  refine ⟨?_, ?_, by decide, by decide, by decide⟩
  · intro out h g
    obtain ⟨i1, _⟩ := driverOptsLoop_ok opts.values [] out h
    have hg := i1 g
    simp only [StringListMap.get] at hg
    constructor
    · intro hex
      have hne : remaindersOf opts.values g ≠ [] := fun hnil =>
        (remaindersOf_eq_nil _ _).1 hnil hex
      rw [hg, if_neg hne]
    · intro hnex
      rw [hg, if_pos ((remaindersOf_eq_nil _ _).2 hnex)]
  · rintro ⟨o, ho, hbad⟩ hnone
    rcases hres : parseDriverOpts opts with ⟨res, e⟩
    rw [hres] at hnone
    simp only at hnone
    subst hnone
    obtain ⟨_, i2⟩ := driverOptsLoop_ok opts.values [] res hres
    obtain ⟨hdot, htrim⟩ := i2 o ho
    rcases hbad with hb | hb
    · rw [(Contains_iff o '.').2 hdot] at hb
      exact Bool.noConfusion hb
    · rw [hb] at htrim
      exact htrim TrimSpace_empty

end Runconfig
